import Mathlib

/-!
Verification of the Email-Rewriter service core against its specification.

The Python sources are shallowly embedded:
* Python strings are lists of characters (`PyStr`), since Python's `str` is a
  sequence of code points.
* Python `int` is `ℤ`, `float` arithmetic on the money amounts is modelled as
  exact rational arithmetic (`ℚ`) with Python's banker's rounding
  (`round half to even`) made explicit.
* Fallible code returns `Except`.
-/

/-- Model of a Python string: a sequence of code points. -/
abbrev PyStr := List Char

deriving instance DecidableEq for Except

/-- Python `str.lower()` restricted to ASCII, which covers every string the
pricing table compares against. -/
def pyLower (s : PyStr) : PyStr := s.map Char.toLower

/-- Python `str.strip()`: remove leading and trailing whitespace. -/
def pyStrip (s : PyStr) : PyStr :=
  (s.dropWhile Char.isWhitespace).rdropWhile Char.isWhitespace

/-- Python `str.split()` with no separator: split on whitespace runs,
dropping empty chunks. -/
def pyWords (s : PyStr) : List PyStr :=
  (s.splitOnP Char.isWhitespace).filter (· ≠ [])

/-- Python's `round` on rationals: round half to even (banker's rounding)
to an integer. -/
def roundHalfEven (q : ℚ) : ℤ :=
  if q - ⌊q⌋ < 1/2 then ⌊q⌋
  else if 1/2 < q - ⌊q⌋ then ⌊q⌋ + 1
  else if 2 ∣ ⌊q⌋ then ⌊q⌋ else ⌊q⌋ + 1

/-- Python's `round(x, n)`: banker's rounding to `n` decimal places. -/
def pyRound (q : ℚ) (n : ℕ) : ℚ :=
  (roundHalfEven (q * 10 ^ n) : ℚ) / 10 ^ n

theorem roundHalfEven_zero : roundHalfEven 0 = 0 := by
  simp [roundHalfEven]

theorem pyRound_zero (n : ℕ) : pyRound 0 n = 0 := by
  simp [pyRound, roundHalfEven_zero]

theorem roundHalfEven_intCast (z : ℤ) : roundHalfEven (z : ℚ) = z := by
  simp [roundHalfEven]

/-! ## src/config/pricing.py -/

/-- One entry of the pricing registry: USD per 1,000 tokens. -/
structure Pricing where
  input : ℚ
  output : ℚ
  deriving DecidableEq, Repr

/-- `PRICING_CONFIG` from `src/config/pricing.py`: the static pricing table,
in insertion order.  Prices are in USD per 1,000 tokens. -/
def PRICING_CONFIG : List (PyStr × Pricing) :=
  [ ("gpt-4o".toList, ⟨0.005, 0.015⟩)
  , ("gpt-4o-mini".toList, ⟨0.00015, 0.0006⟩)
  , ("gpt-4-turbo".toList, ⟨0.01, 0.03⟩)
  , ("gpt-4".toList, ⟨0.03, 0.06⟩)
  , ("gpt-3.5-turbo".toList, ⟨0.0015, 0.002⟩) ]

/-- `get_model_pricing` from `src/config/pricing.py`:
lowercase and strip the name, try an exact registry match, then the first
registry key that is a prefix of the name, then fall back to the
`gpt-4o` entry. -/
def get_model_pricing (model_name : PyStr) : Pricing :=
  match PRICING_CONFIG.find? (fun e => e.1 == pyStrip (pyLower model_name)) with
  | some e => e.2
  | none =>
    match PRICING_CONFIG.find?
        (fun e => e.1.isPrefixOf (pyStrip (pyLower model_name))) with
    | some e => e.2
    | none => ⟨0.005, 0.015⟩

/-- `calculate_cost` from `src/config/pricing.py`. -/
def calculate_cost (input_tokens output_tokens : ℤ) (model_name : PyStr) : ℚ :=
  pyRound ((input_tokens : ℚ) / 1000 * (get_model_pricing model_name).input
    + (output_tokens : ℚ) / 1000 * (get_model_pricing model_name).output) 6

theorem get_model_pricing_gpt4o : get_model_pricing ("gpt-4o".toList) = ⟨0.005, 0.015⟩ := rfl

theorem calculate_cost_gpt4o_100_50 :
    calculate_cost 100 50 ("gpt-4o".toList) = 0.00125 := by
  have h : ((100 : ℤ) : ℚ) / 1000 * (0.005 : ℚ) + ((50 : ℤ) : ℚ) / 1000 * (0.015 : ℚ)
      = 0.00125 := by norm_num
  have h2 : pyRound 0.00125 6 = 0.00125 := by
    have hf : (⌊(0.00125 : ℚ) * 10 ^ 6⌋ : ℤ) = 1250 := by norm_num
    simp [pyRound, roundHalfEven, hf]
    norm_num
  rw [calculate_cost, get_model_pricing_gpt4o]
  rw [h, h2]

/-- C2: for all token counts a, b ≥ 0 and any model name, `calculate_cost`
equals `round(a/1000 * input_price + b/1000 * output_price, 6)` with prices
from the resolved pricing entry; it is pure and deterministic;
`calculate_cost 0 0 model = 0` for every model; and
`calculate_cost 100 50 "gpt-4o" = 0.00125`. -/
theorem C2_calculate_cost_spec (a b : ℤ) (ha : 0 ≤ a) (hb : 0 ≤ b) (m : PyStr) :
    calculate_cost a b m =
      pyRound ((a : ℚ) / 1000 * (get_model_pricing m).input
        + (b : ℚ) / 1000 * (get_model_pricing m).output) 6
    ∧ calculate_cost a b m = calculate_cost a b m
    ∧ calculate_cost 0 0 m = 0
    ∧ calculate_cost 100 50 ("gpt-4o".toList) = 0.00125 := by
  refine ⟨rfl, rfl, ?_, calculate_cost_gpt4o_100_50⟩
  have h0 : ((0 : ℤ) : ℚ) / 1000 * (get_model_pricing m).input
      + ((0 : ℤ) : ℚ) / 1000 * (get_model_pricing m).output = 0 := by
    push_cast
    ring
  rw [calculate_cost, h0, pyRound_zero]

/-- The registry key that `get_model_pricing` resolves against:
the lowercased, trimmed model name. -/
def modelKey (model_name : PyStr) : PyStr := pyStrip (pyLower model_name)

theorem get_model_pricing_exact (m : PyStr) (l₁ l₂ : List (PyStr × Pricing))
    (e : PyStr × Pricing) (hcfg : PRICING_CONFIG = l₁ ++ e :: l₂)
    (he : e.1 = modelKey m) : get_model_pricing m = e.2 := by
  have hn : (PRICING_CONFIG.map Prod.fst).Nodup := by decide
  rw [hcfg, List.map_append, List.map_cons, List.nodup_append] at hn
  have hnone : l₁.find? (fun x => x.1 == modelKey m) = none := by
    rw [List.find?_eq_none]
    intro x hx
    simp only [beq_iff_eq]
    intro hk
    exact hn.2.2 (List.mem_map_of_mem Prod.fst hx) (by rw [hk, ← he]; exact List.mem_cons_self _ _)
  have hpos : ((e :: l₂).find? (fun x => x.1 == modelKey m)) = some e :=
    List.find?_cons_of_pos _ (by simpa using he)
  unfold get_model_pricing
  rw [show pyStrip (pyLower m) = modelKey m from rfl, hcfg, List.find?_append, hnone, hpos]
  rfl

theorem get_model_pricing_pre (m : PyStr) (l₁ l₂ : List (PyStr × Pricing))
    (e : PyStr × Pricing) (hcfg : PRICING_CONFIG = l₁ ++ e :: l₂)
    (hnoexact : ∀ x ∈ PRICING_CONFIG, x.1 ≠ modelKey m)
    (he : e.1 <+: modelKey m)
    (hfirst : ∀ x ∈ l₁, ¬ x.1 <+: modelKey m) : get_model_pricing m = e.2 := by
  have hnone1 : PRICING_CONFIG.find? (fun x => x.1 == modelKey m) = none := by
    rw [List.find?_eq_none]
    intro x hx
    simpa using hnoexact x hx
  have hnone2 : l₁.find? (fun x => x.1.isPrefixOf (modelKey m)) = none := by
    rw [List.find?_eq_none]
    intro x hx
    simpa [List.isPrefixOf_iff_prefix] using hfirst x hx
  have hpos : ((e :: l₂).find? (fun x => x.1.isPrefixOf (modelKey m))) = some e :=
    List.find?_cons_of_pos _ (by simpa [List.isPrefixOf_iff_prefix] using he)
  unfold get_model_pricing
  rw [show pyStrip (pyLower m) = modelKey m from rfl, hnone1, hcfg, List.find?_append,
    hnone2, hpos]
  rfl

theorem get_model_pricing_default (m : PyStr)
    (h : ∀ x ∈ PRICING_CONFIG, x.1 ≠ modelKey m ∧ ¬ x.1 <+: modelKey m) :
    get_model_pricing m = ⟨0.005, 0.015⟩ := by
  have hnone1 : PRICING_CONFIG.find? (fun x => x.1 == modelKey m) = none := by
    rw [List.find?_eq_none]
    intro x hx
    simpa using (h x hx).1
  have hnone2 : PRICING_CONFIG.find? (fun x => x.1.isPrefixOf (modelKey m)) = none := by
    rw [List.find?_eq_none]
    intro x hx
    simpa [List.isPrefixOf_iff_prefix] using (h x hx).2
  unfold get_model_pricing
  rw [show pyStrip (pyLower m) = modelKey m from rfl, hnone1, hnone2]

/-- C3: `get_model_pricing` resolution order.  (1) An exact registry match of
the lowercased, trimmed name wins; (2) otherwise the first registry key, in
insertion order of the static table, that is a prefix of the name wins;
(3) otherwise the `gpt-4o` default entry is returned (the function is total,
so it never fails). -/
theorem C3_get_model_pricing_resolution (m : PyStr) :
    (∀ l₁ l₂ (e : PyStr × Pricing), PRICING_CONFIG = l₁ ++ e :: l₂ →
        e.1 = modelKey m → get_model_pricing m = e.2)
    ∧ (∀ l₁ l₂ (e : PyStr × Pricing), PRICING_CONFIG = l₁ ++ e :: l₂ →
        (∀ x ∈ PRICING_CONFIG, x.1 ≠ modelKey m) →
        e.1 <+: modelKey m →
        (∀ x ∈ l₁, ¬ x.1 <+: modelKey m) →
        get_model_pricing m = e.2)
    ∧ ((∀ x ∈ PRICING_CONFIG, x.1 ≠ modelKey m ∧ ¬ x.1 <+: modelKey m) →
        get_model_pricing m = ⟨0.005, 0.015⟩) :=
  ⟨fun l₁ l₂ e h he => get_model_pricing_exact m l₁ l₂ e h he,
   fun l₁ l₂ e h h1 h2 h3 => get_model_pricing_pre m l₁ l₂ e h h1 h2 h3,
   fun h => get_model_pricing_default m h⟩

/-- C3 witness: the three resolution clauses applied at concrete model names:
an exact (case-insensitive, padded) match `" GPT-4O "`, a dated variant
`"gpt-4-0613"` resolved by first-prefix-match to the `gpt-4` entry, and an
unknown name `"claude-3"` resolved to the default entry. -/
theorem C3_get_model_pricing_resolution_witness :
    get_model_pricing (" GPT-4O ".toList) = ⟨0.005, 0.015⟩
    ∧ get_model_pricing ("gpt-4-0613".toList) = ⟨0.03, 0.06⟩
    ∧ get_model_pricing ("claude-3".toList) = ⟨0.005, 0.015⟩ :=
  ⟨(C3_get_model_pricing_resolution (" GPT-4O ".toList)).1 []
      [("gpt-4o-mini".toList, ⟨0.00015, 0.0006⟩), ("gpt-4-turbo".toList, ⟨0.01, 0.03⟩),
        ("gpt-4".toList, ⟨0.03, 0.06⟩), ("gpt-3.5-turbo".toList, ⟨0.0015, 0.002⟩)]
      ("gpt-4o".toList, ⟨0.005, 0.015⟩) rfl (by decide),
   (C3_get_model_pricing_resolution ("gpt-4-0613".toList)).2.1
      [("gpt-4o".toList, ⟨0.005, 0.015⟩), ("gpt-4o-mini".toList, ⟨0.00015, 0.0006⟩),
        ("gpt-4-turbo".toList, ⟨0.01, 0.03⟩)]
      [("gpt-3.5-turbo".toList, ⟨0.0015, 0.002⟩)]
      ("gpt-4".toList, ⟨0.03, 0.06⟩) rfl (by decide) (by decide) (by decide),
   (C3_get_model_pricing_resolution ("claude-3".toList)).2.2 (by decide)⟩

theorem pyRound_eq_self (q : ℚ) (n : ℕ) (z : ℤ) (h : q * 10 ^ n = (z : ℚ)) :
    pyRound q n = q := by
  unfold pyRound
  rw [h, roundHalfEven_intCast, ← h]
  field_simp

/-! ## src/services/email_service.py -/

/-- Token usage counters as returned by the completion API. -/
structure Usage where
  prompt_tokens : ℕ
  completion_tokens : ℕ
  total_tokens : ℕ
  deriving DecidableEq, Repr

/-- The part of a completion response that `rewrite_email` inspects:
the first choice's message content (absent or present) and the usage
counters (absent or present). -/
structure ChatResponse where
  content : Option PyStr
  usage : Option Usage
  deriving DecidableEq, Repr

/-- The usage block of the returned result dictionary. -/
structure RewriteUsage where
  total_tokens : ℕ
  input_tokens : ℕ
  output_tokens : ℕ
  cost_usd : ℚ
  deriving DecidableEq, Repr

/-- The result dictionary returned by a successful rewrite. -/
structure RewriteResult where
  content : PyStr
  usage : RewriteUsage
  model : PyStr
  deriving DecidableEq, Repr

/-- The two `ValueError`s that `rewrite_email` raises while extracting the
completion response (the spec's `EmptyResponseError` taxonomy). -/
inductive SvcError where
  | emptyResponse
  | noUsageData
  deriving DecidableEq, Repr

/-- `EmailService.rewrite_email` response extraction
(`src/services/email_service.py` lines 94-121): reject an absent or empty
(pre-trim) content, strip it, reject absent usage data, then price the usage
with the hardcoded GPT-4 rates $0.03/$0.06 per 1K tokens, rounded to 4
decimal places. -/
def rewrite_email_result (model : PyStr) (response : ChatResponse) :
    Except SvcError RewriteResult :=
  match response.content with
  | none => .error .emptyResponse
  | some c =>
    if c = [] then .error .emptyResponse
    else
      match response.usage with
      | none => .error .noUsageData
      | some u =>
        .ok { content := pyStrip c
            , usage := { total_tokens := u.total_tokens
                       , input_tokens := u.prompt_tokens
                       , output_tokens := u.completion_tokens
                       , cost_usd := pyRound ((u.prompt_tokens : ℚ) / 1000 * 0.03
                           + (u.completion_tokens : ℚ) / 1000 * 0.06) 4 }
            , model := model }

/-- `EmailService.rewrite_job_application_email` response extraction
(`src/services/email_service.py` lines 160-181): the same shape, with the
same hardcoded $0.03/$0.06 rates. -/
def rewrite_job_application_email_result (model : PyStr) (response : ChatResponse) :
    Except SvcError RewriteResult :=
  match response.content with
  | none => .error .emptyResponse
  | some c =>
    if c = [] then .error .emptyResponse
    else
      match response.usage with
      | none => .error .noUsageData
      | some u =>
        .ok { content := pyStrip c
            , usage := { total_tokens := u.total_tokens
                       , input_tokens := u.prompt_tokens
                       , output_tokens := u.completion_tokens
                       , cost_usd := pyRound ((u.prompt_tokens : ℚ) / 1000 * 0.03
                           + (u.completion_tokens : ℚ) / 1000 * 0.06) 4 }
            , model := model }

/-- C1: the code violates the claim.  With the configured model `gpt-4o` and
returned usage `prompt_tokens = 100`, `completion_tokens = 50`, both rewrite
variants return `cost_usd = 0.006` (hardcoded GPT-4 rates, rounded to 4
decimal places), while the Pricing Table's `calculate_cost` yields
`0.00125`; so `cost_usd` is not derived via the Pricing Table. -/
theorem C1_cost_not_from_pricing_table :
    ∃ r r' : RewriteResult,
      rewrite_email_result ("gpt-4o".toList)
          ⟨some ("Rewritten.".toList), some ⟨100, 50, 150⟩⟩ = .ok r
      ∧ rewrite_job_application_email_result ("gpt-4o".toList)
          ⟨some ("Rewritten.".toList), some ⟨100, 50, 150⟩⟩ = .ok r'
      ∧ r.usage.cost_usd = 0.006
      ∧ r'.usage.cost_usd = 0.006
      ∧ calculate_cost 100 50 ("gpt-4o".toList) = 0.00125
      ∧ r.usage.cost_usd ≠ calculate_cost 100 50 ("gpt-4o".toList) := by
  have hcost : pyRound (((100 : ℕ) : ℚ) / 1000 * 0.03 + ((50 : ℕ) : ℚ) / 1000 * 0.06) 4
      = 0.006 := by
    have h : ((100 : ℕ) : ℚ) / 1000 * 0.03 + ((50 : ℕ) : ℚ) / 1000 * 0.06 = 0.006 := by
      norm_num
    rw [h]
    exact pyRound_eq_self _ 4 60 (by norm_num)
  refine ⟨_, _, rfl, rfl, ?_, ?_, calculate_cost_gpt4o_100_50, ?_⟩
  · exact hcost
  · exact hcost
  · rw [hcost, calculate_cost_gpt4o_100_50]
    norm_num

/-- C4 (amended): the orchestrator fails with the empty-response error when
the returned text is absent or empty before trimming; it fails with the
no-usage error when the usage counters are absent; otherwise it succeeds and
the result's content is exactly the trimmed returned text.  (A whitespace-only
returned text is therefore not rejected; see the counterexample.) -/
theorem C4_response_extraction (model : PyStr) (resp : ChatResponse) :
    (resp.content = none → rewrite_email_result model resp = .error .emptyResponse)
    ∧ (resp.content = some [] → rewrite_email_result model resp = .error .emptyResponse)
    ∧ (∀ c, resp.content = some c → c ≠ [] → resp.usage = none →
        rewrite_email_result model resp = .error .noUsageData)
    ∧ (∀ c u, resp.content = some c → c ≠ [] → resp.usage = some u →
        ∃ r, rewrite_email_result model resp = .ok r ∧ r.content = pyStrip c) := by
  obtain ⟨oc, ou⟩ := resp
  refine ⟨?_, ?_, ?_, ?_⟩
  · rintro rfl
    rfl
  · rintro rfl
    rfl
  · rintro c rfl hc rfl
    simp [rewrite_email_result, hc]
  · rintro c u rfl hc rfl
    refine ⟨{ content := pyStrip c
            , usage := { total_tokens := u.total_tokens
                       , input_tokens := u.prompt_tokens
                       , output_tokens := u.completion_tokens
                       , cost_usd := pyRound ((u.prompt_tokens : ℚ) / 1000 * 0.03
                           + (u.completion_tokens : ℚ) / 1000 * 0.06) 4 }
            , model := model }, ?_, rfl⟩
    simp [rewrite_email_result, hc]

/-- C4 witness: the amended clauses applied at concrete responses: an absent
content, an empty content, a present content with absent usage, and a
successful extraction whose content is the trimmed text. -/
theorem C4_response_extraction_witness :
    rewrite_email_result ("gpt-4".toList) ⟨none, none⟩ = .error .emptyResponse
    ∧ rewrite_email_result ("gpt-4".toList) ⟨some [], none⟩ = .error .emptyResponse
    ∧ rewrite_email_result ("gpt-4".toList) ⟨some (" x ".toList), none⟩
        = .error .noUsageData
    ∧ ∃ r, rewrite_email_result ("gpt-4".toList)
          ⟨some (" x ".toList), some ⟨1, 1, 2⟩⟩ = .ok r
        ∧ r.content = pyStrip (" x ".toList) :=
  ⟨(C4_response_extraction ("gpt-4".toList) ⟨none, none⟩).1 rfl,
   (C4_response_extraction ("gpt-4".toList) ⟨some [], none⟩).2.1 rfl,
   (C4_response_extraction ("gpt-4".toList) ⟨some (" x ".toList), none⟩).2.2.1
      (" x ".toList) rfl (by decide) rfl,
   (C4_response_extraction ("gpt-4".toList) ⟨some (" x ".toList), some ⟨1, 1, 2⟩⟩).2.2.2
      (" x ".toList) ⟨1, 1, 2⟩ rfl (by decide) rfl⟩

/-- C4 counterexample: a whitespace-only returned text is empty after
trimming, yet the operation succeeds (with empty content) instead of failing
with the empty-response error. -/
theorem C4_whitespace_content_not_rejected :
    pyStrip [' '] = []
    ∧ ∃ r, rewrite_email_result ("gpt-4".toList) ⟨some [' '], some ⟨1, 1, 2⟩⟩ = .ok r
        ∧ r.content = [] := by
  refine ⟨by decide, ⟨_, rfl, by decide⟩⟩

/-! ## src/api/models/request.py -/

/-- The control-character scrub in the field validators:
`re.sub` of the class `[\x00-\x1F\x7F]` with the empty string. -/
def scrubControl (s : PyStr) : PyStr :=
  s.filter (fun c => decide (31 < c.toNat ∧ c.toNat ≠ 127))

/-- The validation errors the request model can raise: pydantic's built-in
string-length constraint errors and the validators' word-count
`ValueError`s (which cite the found count and the minimum). -/
inductive RequestError where
  | stringTooShort (field : String) (min_len : ℕ)
  | stringTooLong (field : String) (max_len : ℕ)
  | wordCountTooLow (field : String) (found minimum : ℕ)
  deriving DecidableEq, Repr

/-- `EmailRewriteRequest.validate_email_text`: scrub control characters,
strip, then require at least 10 words. -/
def validate_email_text (v : PyStr) : Except RequestError PyStr :=
  if (pyWords (pyStrip (scrubControl v))).length < 10 then
    .error (.wordCountTooLow "email_text" (pyWords (pyStrip (scrubControl v))).length 10)
  else .ok (pyStrip (scrubControl v))

/-- `EmailRewriteRequest.validate_target_audience`: scrub control characters,
strip, then require at least 2 words. -/
def validate_target_audience (v : PyStr) : Except RequestError PyStr :=
  if (pyWords (pyStrip (scrubControl v))).length < 2 then
    .error (.wordCountTooLow "target_audience" (pyWords (pyStrip (scrubControl v))).length 2)
  else .ok (pyStrip (scrubControl v))

/-- Pydantic validation of the `email_text` field: the declared
`min_length=30` / `max_length=5000` constraints run on the raw value before
the (mode `after`) field validator. -/
def emailTextField (v : PyStr) : Except RequestError PyStr :=
  if v.length < 30 then .error (.stringTooShort "email_text" 30)
  else if 5000 < v.length then .error (.stringTooLong "email_text" 5000)
  else validate_email_text v

/-- Pydantic validation of the `target_audience` field: the declared
`min_length=10` / `max_length=2000` constraints run on the raw value before
the (mode `after`) field validator. -/
def targetAudienceField (v : PyStr) : Except RequestError PyStr :=
  if v.length < 10 then .error (.stringTooShort "target_audience" 10)
  else if 2000 < v.length then .error (.stringTooLong "target_audience" 2000)
  else validate_target_audience v

/-- C5 (amended): the 17-word scenario email and 6-word audience pass
validation; but `email_text = "short text"` (10 characters) is rejected by
the 30-character minimum-length bound with a length error, not with the
word-count error — word-count errors citing the found count and the minimum
10 arise only for inputs inside the length bounds, e.g. a 37-character
2-word input. -/
theorem C5_validation_scenarios :
    emailTextField ("Hi, I wanted to reach out about the project status. Let me know when you have time.".toList)
      = .ok ("Hi, I wanted to reach out about the project status. Let me know when you have time.".toList)
    ∧ targetAudienceField ("C-level executives at Fortune 500 company".toList)
      = .ok ("C-level executives at Fortune 500 company".toList)
    ∧ emailTextField ("short text".toList) = .error (.stringTooShort "email_text" 30)
    ∧ emailTextField ("aaaaaaaaaaaaaaaaaaaaaaaaaaaaaaaaaa bb".toList)
      = .error (.wordCountTooLow "email_text" 2 10) := by
  refine ⟨by decide, by decide, by decide, by decide⟩

/-- C5 counterexample: the claim says `"short text"` fails with a word-count
error citing (2, 10); in fact it fails with the pydantic length error for the
30-character minimum, which fires before the word-count validator. -/
theorem C5_short_text_not_word_count_error :
    emailTextField ("short text".toList) = .error (.stringTooShort "email_text" 30)
    ∧ emailTextField ("short text".toList) ≠ .error (.wordCountTooLow "email_text" 2 10) := by
  refine ⟨by decide, by decide⟩

/-- C10: the request model bounds `email_text` to 30..5000 characters and
`target_audience` to 10..2000 characters on the raw (pre-scrub) value, and
these bounds fire before the word-count validators: a bound violation yields
a length error without reaching the word-count check, and only in-bounds
values run the word-count validator. -/
theorem C10_length_bounds_run_first :
    (∀ v : PyStr, v.length < 30 →
      emailTextField v = .error (.stringTooShort "email_text" 30))
    ∧ (∀ v : PyStr, 5000 < v.length →
      emailTextField v = .error (.stringTooLong "email_text" 5000))
    ∧ (∀ v : PyStr, 30 ≤ v.length → v.length ≤ 5000 →
      emailTextField v = validate_email_text v)
    ∧ (∀ v : PyStr, v.length < 10 →
      targetAudienceField v = .error (.stringTooShort "target_audience" 10))
    ∧ (∀ v : PyStr, 2000 < v.length →
      targetAudienceField v = .error (.stringTooLong "target_audience" 2000))
    ∧ (∀ v : PyStr, 10 ≤ v.length → v.length ≤ 2000 →
      targetAudienceField v = validate_target_audience v) := by
  refine ⟨?_, ?_, ?_, ?_, ?_, ?_⟩
  · intro v h
    simp [emailTextField, h]
  · intro v h
    rw [emailTextField, if_neg (by omega), if_pos h]
  · intro v h1 h2
    rw [emailTextField, if_neg (by omega), if_neg (by omega)]
  · intro v h
    simp [targetAudienceField, h]
  · intro v h
    rw [targetAudienceField, if_neg (by omega), if_pos h]
  · intro v h1 h2
    rw [targetAudienceField, if_neg (by omega), if_neg (by omega)]

/-- C10 witness: the bound clauses applied at concrete inputs, including the
2-word `"short text"` whose rejection is the length error, not the
word-count error. -/
theorem C10_length_bounds_run_first_witness :
    emailTextField ("short text".toList) = .error (.stringTooShort "email_text" 30)
    ∧ emailTextField (List.replicate 5001 'a')
      = .error (.stringTooLong "email_text" 5000)
    ∧ emailTextField (List.replicate 30 'a')
      = validate_email_text (List.replicate 30 'a')
    ∧ targetAudienceField ("too short".toList)
      = .error (.stringTooShort "target_audience" 10)
    ∧ targetAudienceField (List.replicate 2001 'a')
      = .error (.stringTooLong "target_audience" 2000)
    ∧ targetAudienceField (List.replicate 10 'a')
      = validate_target_audience (List.replicate 10 'a') :=
  ⟨C10_length_bounds_run_first.1 ("short text".toList) (by decide),
   C10_length_bounds_run_first.2.1 (List.replicate 5001 'a')
     (lt_of_lt_of_eq (by decide) (List.length_replicate _ _).symm),
   C10_length_bounds_run_first.2.2.1 (List.replicate 30 'a')
     (le_of_le_of_eq (by decide) (List.length_replicate _ _).symm)
     (le_of_eq_of_le (List.length_replicate _ _) (by decide)),
   C10_length_bounds_run_first.2.2.2.1 ("too short".toList) (by decide),
   C10_length_bounds_run_first.2.2.2.2.1 (List.replicate 2001 'a')
     (lt_of_lt_of_eq (by decide) (List.length_replicate _ _).symm),
   C10_length_bounds_run_first.2.2.2.2.2 (List.replicate 10 'a')
     (le_of_le_of_eq (by decide) (List.length_replicate _ _).symm)
     (le_of_eq_of_le (List.length_replicate _ _) (by decide))⟩

/-! ## src/utils/file_handler.py — PDF extraction -/

/-- The failures of `extract_text_from_pdf` (each a `ValueError` in the
source). -/
inductive PdfError where
  | emptyFile
  | noPages
  | noText
  deriving DecidableEq, Repr

/-- The page loop of `extract_text_from_pdf`: a page is modelled as
`none` when `page.extract_text()` raises (the page is skipped) and as
`some t` when it returns text `t`; a page whose text strips to empty is also
skipped, otherwise `text += page_text + "\n"`. -/
def pdfPageFold (pages : List (Option PyStr)) : PyStr :=
  pages.foldl
    (fun acc p =>
      match p with
      | none => acc
      | some t => if pyStrip t = [] then acc else acc ++ (t ++ ['\n']))
    []

/-- `extract_text_from_pdf` from `src/utils/file_handler.py`: fail on an
empty byte buffer, a zero-page document, or an all-whitespace concatenation;
otherwise return the stripped concatenation. -/
def extract_text_from_pdf (contentLen : ℕ) (pages : List (Option PyStr)) :
    Except PdfError PyStr :=
  if contentLen = 0 then .error .emptyFile
  else if pages.length = 0 then .error .noPages
  else if pyStrip (pdfPageFold pages) = [] then .error .noText
  else .ok (pyStrip (pdfPageFold pages))

/-- The pages that contribute text: those that did not raise and whose text
is not whitespace-only. -/
def pdfContrib (pages : List (Option PyStr)) : List PyStr :=
  (pages.filterMap id).filter (fun t => !(pyStrip t).isEmpty)

/-- The spec's "newline-joined concatenation" of a list of page texts. -/
def joinNewline : List PyStr → PyStr
  | [] => []
  | [t] => t
  | t :: rest => t ++ '\n' :: joinNewline rest

/-- Concatenation where every page text is followed by a newline, as the
source's loop builds it. -/
def pdfConcat (l : List PyStr) : PyStr := (l.map (· ++ ['\n'])).flatten

theorem pdfPageFold_eq_concat (pages : List (Option PyStr)) :
    pdfPageFold pages = pdfConcat (pdfContrib pages) := by
  suffices h : ∀ acc : PyStr,
      pages.foldl
        (fun acc p =>
          match p with
          | none => acc
          | some t => if pyStrip t = [] then acc else acc ++ (t ++ ['\n']))
        acc = acc ++ pdfConcat (pdfContrib pages) by
    simpa [pdfPageFold] using h []
  induction pages with
  | nil => intro acc; simp [pdfConcat, pdfContrib]
  | cons p rest ih =>
    intro acc
    match p with
    | none => simpa [pdfContrib] using ih acc
    | some t =>
      by_cases ht : pyStrip t = []
      · simpa [pdfContrib, ht] using ih acc
      · have : (!(pyStrip t).isEmpty) = true := by
          simpa [List.isEmpty_iff] using ht
        simp only [List.foldl_cons, if_neg ht]
        rw [ih (acc ++ (t ++ ['\n']))]
        simp [pdfContrib, pdfConcat, this, List.append_assoc]

theorem pdfConcat_eq_joinNewline (l : List PyStr) (h : l ≠ []) :
    pdfConcat l = joinNewline l ++ ['\n'] := by
  induction l with
  | nil => exact absurd rfl h
  | cons t rest ih =>
    match rest with
    | [] => simp [pdfConcat, joinNewline]
    | r :: rs =>
      have h2 := ih (by simp)
      show (t ++ ['\n']) ++ pdfConcat (r :: rs) = joinNewline (t :: r :: rs) ++ ['\n']
      rw [h2, show joinNewline (t :: r :: rs) = t ++ '\n' :: joinNewline (r :: rs) from rfl]
      simp

theorem pyStrip_eq_nil_iff (s : PyStr) :
    pyStrip s = [] ↔ ∀ c ∈ s, c.isWhitespace := by
  unfold pyStrip
  rw [List.rdropWhile_eq_nil_iff]
  constructor
  · intro h c hc
    rcases List.mem_append.mp
        ((List.takeWhile_append_dropWhile (p := Char.isWhitespace) (l := s)) ▸ hc) with h1 | h2
    · exact List.mem_takeWhile_imp h1
    · exact h _ h2
  · intro h x hx
    exact h x ((List.dropWhile_sublist _).subset hx)

theorem pyStrip_concat_nl (x : PyStr) : pyStrip (x ++ ['\n']) = pyStrip x := by
  unfold pyStrip
  rw [List.dropWhile_append]
  split
  · rename_i h
    rw [List.isEmpty_iff] at h
    rw [h]
    simp [List.dropWhile]
  · exact List.rdropWhile_concat_pos _ _ _ (by decide)

theorem pyStrip_pdfConcat (l : List PyStr) :
    pyStrip (pdfConcat l) = pyStrip (joinNewline l) := by
  by_cases h : l = []
  · subst h; rfl
  · rw [pdfConcat_eq_joinNewline l h, pyStrip_concat_nl]

theorem mem_pdfConcat {c : Char} {t : PyStr} {l : List PyStr}
    (ht : t ∈ l) (hc : c ∈ t) : c ∈ pdfConcat l := by
  induction l with
  | nil => cases ht
  | cons a rest ih =>
    rcases List.mem_cons.mp ht with h | h
    · subst h
      show c ∈ (t ++ ['\n']) ++ pdfConcat rest
      exact List.mem_append.mpr (Or.inl (List.mem_append.mpr (Or.inl hc)))
    · show c ∈ (a ++ ['\n']) ++ pdfConcat rest
      exact List.mem_append.mpr (Or.inr (ih h))

theorem pdfFold_strip_ne_nil_iff (pages : List (Option PyStr)) :
    pyStrip (pdfPageFold pages) ≠ [] ↔ pdfContrib pages ≠ [] := by
  rw [pdfPageFold_eq_concat]
  constructor
  · intro h hc
    apply h
    rw [hc]
    rfl
  · intro h
    match hm : pdfContrib pages with
    | [] => exact absurd hm h
    | t :: rest =>
      have htmem : t ∈ pdfContrib pages := by rw [hm]; exact List.mem_cons_self _ _
      have ht : pyStrip t ≠ [] := by
        have := (List.mem_filter.mp htmem).2
        simpa [List.isEmpty_iff] using this
      have : ∃ c ∈ t, ¬ c.isWhitespace := by
        by_contra hall
        push_neg at hall
        exact ht ((pyStrip_eq_nil_iff t).mpr hall)
      obtain ⟨c, hct, hcw⟩ := this
      intro hnil
      exact hcw ((pyStrip_eq_nil_iff _).mp hnil c
        (mem_pdfConcat (List.mem_cons_self t rest) hct))

/-- C6 (amended): pages whose extraction raises are skipped, and so are
pages whose text is whitespace-only; extraction succeeds exactly when the
byte buffer is nonempty, the document has at least one page, and some page
contributes non-whitespace text, in which case the result is the
newline-joined concatenation of the contributing pages' texts, stripped of
leading and trailing whitespace. -/
theorem C6_pdf_extraction (contentLen : ℕ) (pages : List (Option PyStr)) :
    ((∃ r, extract_text_from_pdf contentLen pages = .ok r) ↔
      (contentLen ≠ 0 ∧ pages ≠ [] ∧ pdfContrib pages ≠ []))
    ∧ (contentLen ≠ 0 → pages ≠ [] → pdfContrib pages ≠ [] →
        extract_text_from_pdf contentLen pages
          = .ok (pyStrip (joinNewline (pdfContrib pages)))) := by
  have hmain : contentLen ≠ 0 → pages ≠ [] → pdfContrib pages ≠ [] →
      extract_text_from_pdf contentLen pages
        = .ok (pyStrip (joinNewline (pdfContrib pages))) := by
    intro h1 h2 h3
    have hne : pyStrip (pdfPageFold pages) ≠ [] :=
      (pdfFold_strip_ne_nil_iff pages).mpr h3
    rw [extract_text_from_pdf, if_neg h1,
      if_neg (by simpa [List.length_eq_zero] using h2), if_neg hne,
      pdfPageFold_eq_concat, pyStrip_pdfConcat]
  refine ⟨⟨?_, ?_⟩, hmain⟩
  · rintro ⟨r, hr⟩
    by_cases h1 : contentLen = 0
    · rw [extract_text_from_pdf, if_pos h1] at hr; cases hr
    by_cases h2 : pages.length = 0
    · rw [extract_text_from_pdf, if_neg h1, if_pos h2] at hr; cases hr
    by_cases h3 : pyStrip (pdfPageFold pages) = []
    · rw [extract_text_from_pdf, if_neg h1, if_neg h2, if_pos h3] at hr; cases hr
    · exact ⟨h1, by simpa [List.length_eq_zero] using h2,
        (pdfFold_strip_ne_nil_iff pages).mp h3⟩
  · rintro ⟨h1, h2, h3⟩
    exact ⟨_, hmain h1 h2 h3⟩

/-- C6 witness: the spec's 3-page scenario — page 2 raises, pages 1 and 3
contribute — evaluates to the newline-join of pages 1 and 3. -/
theorem C6_pdf_extraction_witness :
    extract_text_from_pdf 5 [some ("Hello".toList), none, some ("World".toList)]
      = .ok (pyStrip (joinNewline
          (pdfContrib [some ("Hello".toList), none, some ("World".toList)]))) :=
  (C6_pdf_extraction 5 [some ("Hello".toList), none, some ("World".toList)]).2
    (by decide) (by decide) (by decide)

/-- C6 counterexample: with three non-raising pages whose middle page is the
single space, the code returns the join of pages 1 and 3 only, not the
newline-joined concatenation of all remaining (non-raising) pages — in
particular the middle whitespace page is dropped even though its extraction
did not raise. -/
theorem C6_whitespace_page_dropped :
    extract_text_from_pdf 5 [some ("Hello".toList), some [' '], some ("World".toList)]
      = .ok ("Hello\nWorld".toList)
    ∧ joinNewline ["Hello".toList, [' '], "World".toList] = "Hello\n \nWorld".toList
    ∧ ("Hello\nWorld".toList : PyStr) ≠ "Hello\n \nWorld".toList
    ∧ pyStrip ("Hello\n \nWorld".toList) = "Hello\n \nWorld".toList := by
  refine ⟨by decide, by decide, by decide, by decide⟩

/-! ## Folder processing: src/api/app.py process_input_folder_endpoint and
src/utils/input_folder_monitor.py InputFolderMonitor.process_file -/

/-- The three input-directory locations a file can be in after a pass. -/
structure FolderState where
  input : List String
  processed : List String
  errors : List String
  deriving DecidableEq, Repr

/-- The per-file tri-state recorded in the endpoint's results. -/
inductive FileStatus where
  | success
  | error
  | skipped
  deriving DecidableEq, Repr

/-- A file as the folder pass sees it: its name, the outcome of reading it
(`none` models an `open`/`read` that raises), and whether the downstream
processing (rewrite service / extraction and output save) succeeds. -/
structure InputFile where
  name : String
  content : Option PyStr
  serviceOk : Bool
  deriving DecidableEq, Repr

/-- One iteration of `process_input_folder_endpoint`'s loop
(`src/api/app.py` lines 470-528): read the file, skip files shorter than 100
characters (left in place), move a successfully processed file to
`processed/`, and on any exception record an error result without moving
the file. -/
def endpointProcessFile (st : FolderState) (f : InputFile) :
    FolderState × FileStatus :=
  match f.content with
  | none => (st, .error)
  | some text =>
    if text.length < 100 then (st, .skipped)
    else if f.serviceOk then
      ({ st with input := st.input.erase f.name
               , processed := st.processed ++ [f.name] }, .success)
    else (st, .error)

/-- `InputFolderMonitor.process_file`
(`src/utils/input_folder_monitor.py` lines 55-128): on success the file is
renamed into `processed/`; on any exception it is renamed into `errors/`;
there is no content-length gate. -/
def monitorProcessFile (st : FolderState) (f : InputFile) :
    FolderState × FileStatus :=
  match f.content with
  | none =>
    ({ st with input := st.input.erase f.name
             , errors := st.errors ++ [f.name] }, .error)
  | some _ =>
    if f.serviceOk then
      ({ st with input := st.input.erase f.name
               , processed := st.processed ++ [f.name] }, .success)
    else
      ({ st with input := st.input.erase f.name
               , errors := st.errors ++ [f.name] }, .error)

/-- C9 (amended): the monitor's per-file processing always moves the touched
file out of the input directory — to `processed/` on success and to
`errors/` on failure.  The endpoint pass moves only successful files (to
`processed/`); a file whose processing fails stays in the input directory
with an error result, and a file below the 100-character minimum is skipped
in place, counted as neither success nor failure. -/
theorem C9_folder_pass_file_moves (st : FolderState) (f : InputFile) :
    ((monitorProcessFile st f).1.input = st.input.erase f.name)
    ∧ (∀ t, f.content = some t → f.serviceOk = true →
        (monitorProcessFile st f).1.processed = st.processed ++ [f.name]
        ∧ (monitorProcessFile st f).2 = .success)
    ∧ ((f.content = none ∨ f.serviceOk = false) →
        (monitorProcessFile st f).1.errors = st.errors ++ [f.name]
        ∧ (monitorProcessFile st f).2 = .error)
    ∧ (∀ t, f.content = some t → 100 ≤ t.length → f.serviceOk = true →
        (endpointProcessFile st f).1.input = st.input.erase f.name
        ∧ (endpointProcessFile st f).1.processed = st.processed ++ [f.name]
        ∧ (endpointProcessFile st f).2 = .success)
    ∧ (f.content = none → endpointProcessFile st f = (st, .error))
    ∧ (∀ t, f.content = some t → 100 ≤ t.length → f.serviceOk = false →
        endpointProcessFile st f = (st, .error))
    ∧ (∀ t, f.content = some t → t.length < 100 →
        endpointProcessFile st f = (st, .skipped)) := by
  obtain ⟨name, oc, sv⟩ := f
  refine ⟨?_, ?_, ?_, ?_, ?_, ?_, ?_⟩
  · cases oc with
    | none => rfl
    | some t => cases sv <;> rfl
  · rintro t rfl rfl
    exact ⟨rfl, rfl⟩
  · rintro (rfl | rfl)
    · exact ⟨rfl, rfl⟩
    · cases oc with
      | none => exact ⟨rfl, rfl⟩
      | some t => exact ⟨rfl, rfl⟩
  · rintro t rfl ht rfl
    simp [endpointProcessFile, Nat.not_lt.mpr ht]
  · rintro rfl
    rfl
  · rintro t rfl ht rfl
    simp [endpointProcessFile, Nat.not_lt.mpr ht]
  · rintro t rfl ht
    simp [endpointProcessFile, ht]

/-- C9 witness: the amended clauses at a concrete one-file state: the
monitor moves a failing file to `errors/`, the endpoint moves a successful
long-enough file to `processed/`, and the endpoint skips a short file in
place. -/
theorem C9_folder_pass_file_moves_witness :
    ((monitorProcessFile ⟨["a.txt"], [], []⟩ ⟨"a.txt", none, true⟩).1.errors = ["a.txt"]
      ∧ (monitorProcessFile ⟨["a.txt"], [], []⟩ ⟨"a.txt", none, true⟩).2 = .error)
    ∧ ((endpointProcessFile ⟨["a.txt"], [], []⟩
          ⟨"a.txt", some (List.replicate 100 'a'), true⟩).1.input = List.erase ["a.txt"] "a.txt"
      ∧ (endpointProcessFile ⟨["a.txt"], [], []⟩
          ⟨"a.txt", some (List.replicate 100 'a'), true⟩).1.processed = ["a.txt"]
      ∧ (endpointProcessFile ⟨["a.txt"], [], []⟩
          ⟨"a.txt", some (List.replicate 100 'a'), true⟩).2 = .success)
    ∧ endpointProcessFile ⟨["a.txt"], [], []⟩ ⟨"a.txt", some ("hi".toList), true⟩
        = (⟨["a.txt"], [], []⟩, .skipped) :=
  ⟨(C9_folder_pass_file_moves ⟨["a.txt"], [], []⟩ ⟨"a.txt", none, true⟩).2.2.1
      (Or.inl rfl),
   (C9_folder_pass_file_moves ⟨["a.txt"], [], []⟩
      ⟨"a.txt", some (List.replicate 100 'a'), true⟩).2.2.2.1
      (List.replicate 100 'a') rfl (le_of_eq (List.length_replicate 100 'a').symm)
      rfl,
   (C9_folder_pass_file_moves ⟨["a.txt"], [], []⟩ ⟨"a.txt", some ("hi".toList), true⟩).2.2.2.2.2.2
      ("hi".toList) rfl (by decide)⟩

/-- C9 counterexample: in the endpoint pass, a long-enough file whose
processing fails is recorded as an error but stays in the input directory —
it is moved neither to `processed/` nor to `errors/`, contradicting the
claim that every touched non-skipped file leaves the input directory. -/
theorem C9_endpoint_failure_not_moved :
    endpointProcessFile ⟨["a.txt"], [], []⟩
        ⟨"a.txt", some (List.replicate 100 'a'), false⟩
      = (⟨["a.txt"], [], []⟩, .error)
    ∧ "a.txt" ∈ (endpointProcessFile ⟨["a.txt"], [], []⟩
        ⟨"a.txt", some (List.replicate 100 'a'), false⟩).1.input
    ∧ (endpointProcessFile ⟨["a.txt"], [], []⟩
        ⟨"a.txt", some (List.replicate 100 'a'), false⟩).1.errors = [] := by
  refine ⟨by decide, by decide, by decide⟩

/-! ## src/utils/file_handler.py — text-file extraction with encoding
fallback.  The UTF-8 codec (the first entry of the fallback chain) is
modelled concretely; byte strings are lists of byte values. -/

/-- UTF-8 encoding of a single code point (1 to 4 bytes). -/
def utf8EncodeChar (c : Char) : List ℕ :=
  if c.toNat < 128 then [c.toNat]
  else if c.toNat < 2048 then
    [192 + c.toNat / 64, 128 + c.toNat % 64]
  else if c.toNat < 65536 then
    [224 + c.toNat / 4096, 128 + c.toNat / 64 % 64, 128 + c.toNat % 64]
  else
    [240 + c.toNat / 262144, 128 + c.toNat / 4096 % 64,
      128 + c.toNat / 64 % 64, 128 + c.toNat % 64]

/-- UTF-8 encoding of a string. -/
def utf8Encode : PyStr → List ℕ
  | [] => []
  | c :: rest => utf8EncodeChar c ++ utf8Encode rest

/-- One step of strict UTF-8 decoding: given a nonempty byte list, return
the first decoded code point together with the number of continuation bytes
consumed, rejecting stray continuation bytes, overlong forms, surrogates and
code points beyond U+10FFFF. -/
def utf8Step : List ℕ → Option (Char × ℕ)
  | [] => none
  | b0 :: rest =>
    if b0 < 128 then some (Char.ofNat b0, 0)
    else if b0 < 194 then none
    else if b0 < 224 then
      match rest with
      | b1 :: _ =>
        if 128 ≤ b1 ∧ b1 < 192 then
          some (Char.ofNat ((b0 - 192) * 64 + (b1 - 128)), 1)
        else none
      | [] => none
    else if b0 < 240 then
      match rest with
      | b1 :: b2 :: _ =>
        if (128 ≤ b1 ∧ b1 < 192) ∧ (128 ≤ b2 ∧ b2 < 192)
            ∧ (b0 = 224 → 160 ≤ b1) ∧ (b0 = 237 → b1 < 160) then
          some (Char.ofNat ((b0 - 224) * 4096 + (b1 - 128) * 64 + (b2 - 128)), 2)
        else none
      | _ => none
    else if b0 < 245 then
      match rest with
      | b1 :: b2 :: b3 :: _ =>
        if (128 ≤ b1 ∧ b1 < 192) ∧ (128 ≤ b2 ∧ b2 < 192) ∧ (128 ≤ b3 ∧ b3 < 192)
            ∧ (b0 = 240 → 144 ≤ b1) ∧ (b0 = 244 → b1 < 144) then
          some (Char.ofNat ((b0 - 240) * 262144 + (b1 - 128) * 4096
            + (b2 - 128) * 64 + (b3 - 128)), 3)
        else none
      | _ => none
    else none

/-- Strict UTF-8 decoding, as Python's `bytes.decode("utf-8")`:
`none` models a `UnicodeDecodeError`. -/
def utf8Decode (l : List ℕ) : Option PyStr :=
  match l with
  | [] => some []
  | b0 :: rest =>
    match utf8Step (b0 :: rest) with
    | none => none
    | some (c, k) => (utf8Decode ((b0 :: rest).drop (k + 1))).map (fun cs => c :: cs)
termination_by l.length
decreasing_by
  simp only [List.length_drop, List.length_cons]
  omega

theorem utf8EncodeChar_ne_nil (c : Char) : utf8EncodeChar c ≠ [] := by
  unfold utf8EncodeChar
  split
  · simp
  split
  · simp
  split
  · simp
  · simp

theorem utf8Decode_cons (b0 : ℕ) (rest : List ℕ) :
    utf8Decode (b0 :: rest) =
      match utf8Step (b0 :: rest) with
      | none => none
      | some (c, k) =>
        (utf8Decode ((b0 :: rest).drop (k + 1))).map (fun cs => c :: cs) := by
  rw [utf8Decode]

theorem utf8Decode_encodeChar (c : Char) (bs : List ℕ) :
    utf8Decode (utf8EncodeChar c ++ bs) = (utf8Decode bs).map (fun cs => c :: cs) := by
  have hval : c.toNat < 55296 ∨ (57343 < c.toNat ∧ c.toNat < 1114112) := c.valid
  have hofn : Char.ofNat c.toNat = c := Char.ofNat_toNat c
  by_cases h1 : c.toNat < 128
  · have henc : utf8EncodeChar c = [c.toNat] := by
      simp only [utf8EncodeChar]
      rw [if_pos h1]
    rw [henc, List.cons_append, List.nil_append]
    have hstep : utf8Step (c.toNat :: bs) = some (c, 0) := by
      dsimp only [utf8Step]
      rw [if_pos h1, hofn]
    rw [utf8Decode_cons, hstep]
    simp [List.drop]
  by_cases h2 : c.toNat < 2048
  · have henc : utf8EncodeChar c = [192 + c.toNat / 64, 128 + c.toNat % 64] := by
      simp only [utf8EncodeChar]
      rw [if_neg h1, if_pos h2]
    rw [henc]
    show utf8Decode ((192 + c.toNat / 64) :: (128 + c.toNat % 64) :: bs) = _
    have hstep : utf8Step ((192 + c.toNat / 64) :: (128 + c.toNat % 64) :: bs)
        = some (c, 1) := by
      dsimp only [utf8Step]
      rw [if_neg (by omega), if_neg (by omega), if_pos (by omega),
        if_pos (by constructor <;> omega)]
      have harg : (192 + c.toNat / 64 - 192) * 64 + (128 + c.toNat % 64 - 128)
          = c.toNat := by omega
      rw [harg, hofn]
    rw [utf8Decode_cons, hstep]
    simp [List.drop]
  by_cases h3 : c.toNat < 65536
  · have henc : utf8EncodeChar c
        = [224 + c.toNat / 4096, 128 + c.toNat / 64 % 64, 128 + c.toNat % 64] := by
      simp only [utf8EncodeChar]
      rw [if_neg h1, if_neg h2, if_pos h3]
    rw [henc]
    show utf8Decode ((224 + c.toNat / 4096) :: (128 + c.toNat / 64 % 64)
        :: (128 + c.toNat % 64) :: bs) = _
    have hstep : utf8Step ((224 + c.toNat / 4096) :: (128 + c.toNat / 64 % 64)
        :: (128 + c.toNat % 64) :: bs) = some (c, 2) := by
      dsimp only [utf8Step]
      rw [if_neg (by omega), if_neg (by omega), if_neg (by omega), if_pos (by omega),
        if_pos (by refine ⟨by omega, by omega, by omega, by omega⟩)]
      have harg : (224 + c.toNat / 4096 - 224) * 4096
          + (128 + c.toNat / 64 % 64 - 128) * 64 + (128 + c.toNat % 64 - 128)
          = c.toNat := by omega
      rw [harg, hofn]
    rw [utf8Decode_cons, hstep]
    simp [List.drop]
  · have henc : utf8EncodeChar c
        = [240 + c.toNat / 262144, 128 + c.toNat / 4096 % 64,
            128 + c.toNat / 64 % 64, 128 + c.toNat % 64] := by
      simp only [utf8EncodeChar]
      rw [if_neg h1, if_neg h2, if_neg h3]
    rw [henc]
    show utf8Decode ((240 + c.toNat / 262144) :: (128 + c.toNat / 4096 % 64)
        :: (128 + c.toNat / 64 % 64) :: (128 + c.toNat % 64) :: bs) = _
    have hstep : utf8Step ((240 + c.toNat / 262144) :: (128 + c.toNat / 4096 % 64)
        :: (128 + c.toNat / 64 % 64) :: (128 + c.toNat % 64) :: bs) = some (c, 3) := by
      dsimp only [utf8Step]
      rw [if_neg (by omega), if_neg (by omega), if_neg (by omega), if_neg (by omega),
        if_pos (by omega),
        if_pos (by refine ⟨by omega, by omega, by omega, by omega, by omega⟩)]
      have harg : (240 + c.toNat / 262144 - 240) * 262144
          + (128 + c.toNat / 4096 % 64 - 128) * 4096
          + (128 + c.toNat / 64 % 64 - 128) * 64 + (128 + c.toNat % 64 - 128)
          = c.toNat := by omega
      rw [harg, hofn]
    rw [utf8Decode_cons, hstep]
    simp [List.drop]

theorem utf8Decode_utf8Encode (s : PyStr) : utf8Decode (utf8Encode s) = some s := by
  induction s with
  | nil => simp [utf8Encode, utf8Decode]
  | cons c rest ih =>
    show utf8Decode (utf8EncodeChar c ++ utf8Encode rest) = some (c :: rest)
    rw [utf8Decode_encodeChar, ih]
    rfl

/-- The failures of `extract_text_from_txt` (each a `ValueError`). -/
inductive TxtError where
  | emptyFile
  | cannotDecode
  | noReadable
  deriving DecidableEq, Repr

/-- The encoding-fallback loop of `extract_text_from_txt`: try each decoder
in order, keep the first successful result; if none succeeds, the
accumulated text stays empty. -/
def tryDecode (decoders : List (List ℕ → Option PyStr)) (content : List ℕ) : PyStr :=
  match decoders with
  | [] => []
  | d :: rest =>
    match d content with
    | some s => s
    | none => tryDecode rest content

/-- `extract_text_from_txt` from `src/utils/file_handler.py`: reject empty
input; decode with the chain UTF-8, UTF-16, Latin-1, cp1252 (the last three
decoders are opaque parameters of the model); an empty decode result is
rejected; the stripped text is returned, empty-after-strip being
rejected. -/
def extract_text_from_txt (utf16 latin1 cp1252 : List ℕ → Option PyStr)
    (content : List ℕ) : Except TxtError PyStr :=
  if content.length = 0 then .error .emptyFile
  else if tryDecode [utf8Decode, utf16, latin1, cp1252] content = [] then
    .error .cannotDecode
  else if pyStrip (tryDecode [utf8Decode, utf16, latin1, cp1252] content) = [] then
    .error .noReadable
  else .ok (pyStrip (tryDecode [utf8Decode, utf16, latin1, cp1252] content))

/-- C7: round trip for plain text — for every string whose UTF-8 encoding is
nonempty (equivalently, a nonempty string) and whose stripped form is
nonempty, extracting the UTF-8 bytes of the string yields exactly the string
with leading and trailing whitespace removed, whatever the behaviour of the
UTF-16, Latin-1 and cp1252 decoders later in the chain (UTF-8 is tried
first, so it wins on valid UTF-8 input). -/
theorem C7_txt_utf8_roundtrip (s : PyStr) (hs : s ≠ []) (hstrip : pyStrip s ≠ [])
    (utf16 latin1 cp1252 : List ℕ → Option PyStr) :
    extract_text_from_txt utf16 latin1 cp1252 (utf8Encode s) = .ok (pyStrip s) := by
  have hdec : tryDecode [utf8Decode, utf16, latin1, cp1252] (utf8Encode s) = s := by
    simp only [tryDecode, utf8Decode_utf8Encode s]
  have hlen : utf8Encode s ≠ [] := by
    match s with
    | [] => exact absurd rfl hs
    | c :: rest =>
      show utf8EncodeChar c ++ utf8Encode rest ≠ []
      simp [utf8EncodeChar_ne_nil c]
  rw [extract_text_from_txt,
    if_neg (by simpa [List.length_eq_zero] using hlen),
    hdec, if_neg hs, if_neg hstrip]

/-- C7 witness: the round trip at the concrete string `" Hello "` with
decoders that always fail later in the chain. -/
theorem C7_txt_utf8_roundtrip_witness :
    extract_text_from_txt (fun _ => none) (fun _ => none) (fun _ => none)
      (utf8Encode (" Hello ".toList)) = .ok (pyStrip (" Hello ".toList)) :=
  C7_txt_utf8_roundtrip (" Hello ".toList) (by decide) (by decide)
    (fun _ => none) (fun _ => none) (fun _ => none)

/-! ## src/utils/prompt_templates.py — the email-rewrite user prompt.

`PromptTemplates.get_email_rewrite_prompt` renders a Jinja2 template with
`trim_blocks` and `lstrip_blocks` enabled (every block tag that ends a line
swallows the following newline), then strips the result.  The rendering is
embedded below as explicit concatenation of the template's literal segments
with the interpolated values. -/

/-- Jinja's `capitalize` filter (Python `str.capitalize`): first character
uppercased, the rest lowercased. -/
def jinjaCapitalize (s : PyStr) : PyStr :=
  match s with
  | [] => []
  | c :: rest => c.toUpper :: pyLower rest

/-- Jinja's `join(', ')` filter. -/
def joinCommaSpace : List PyStr → PyStr
  | [] => []
  | [t] => t
  | t :: rest => t ++ (", ".toList ++ joinCommaSpace rest)

/-- Decimal rendering of a number interpolated by the template. -/
def natRepr (n : ℕ) : PyStr :=
  if n < 10 then [Char.ofNat (48 + n)]
  else natRepr (n / 10) ++ [Char.ofNat (48 + n % 10)]

/-- The `constraints` dictionary the template reads (`max_length`,
`must_include`, `avoid`); a `none` field models an absent or falsy entry. -/
structure TemplateConstraints where
  max_length : Option ℕ
  must_include : Option (List PyStr)
  avoid : Option (List PyStr)
  deriving DecidableEq, Repr

/-- The canned tone description for `professional`. -/
def tonePhraseProfessional : PyStr :=
  "formal, respectful, and business-appropriate".toList

/-- The canned tone description for `casual`. -/
def tonePhraseCasual : PyStr :=
  "friendly, approachable, and conversational".toList

/-- The canned tone description for `academic`. -/
def tonePhraseAcademic : PyStr :=
  "scholarly, precise, and well-structured".toList

/-- The generic fallback description for any other tone value. -/
def tonePhraseFallback : PyStr :=
  "balanced and appropriate for the context".toList

/-- The template's tone conditional: an exact, case-sensitive comparison of
the raw tone string. -/
def toneDescription (tone : PyStr) : PyStr :=
  if tone = "professional".toList then tonePhraseProfessional
  else if tone = "casual".toList then tonePhraseCasual
  else if tone = "academic".toList then tonePhraseAcademic
  else tonePhraseFallback

/-- Template literal up to the interpolated email text. -/
def promptSeg1 : PyStr :=
  "\n## Task: Rewrite Professional Email\n\n### Original Email:\n```\n".toList

/-- Template literal between the email text and the target audience. -/
def promptSeg2 : PyStr :=
  "\n```\n\n### Target Audience/Context:\n".toList

/-- Template literal between the target audience and the displayed tone. -/
def promptSeg3 : PyStr :=
  "\n\n### Tone Requirement:\n".toList

/-- The literal between the displayed tone and its description. -/
def promptToneMid : PyStr := " tone - ".toList

/-- The focus-areas block header literal. -/
def focusHeaderLit : PyStr := "### Key Focus Areas:\n".toList

/-- The per-area item literal. -/
def emphasizeLit : PyStr := "- Emphasize ".toList

/-- The constraints block header literal. -/
def constraintsHeaderLit : PyStr := "### Constraints:\n".toList

/-- The maximum-length line literal. -/
def maxLengthLit : PyStr := "- Maximum length: ".toList

/-- The trailer of the maximum-length line. -/
def wordsLit : PyStr := " words\n".toList

/-- The must-include line literal. -/
def mustIncludeLit : PyStr := "- Must include: ".toList

/-- The avoid line literal. -/
def avoidLit : PyStr := "- Avoid: ".toList

/-- The additional-instructions block header literal. -/
def addlHeaderLit : PyStr := "### Additional Instructions:\n".toList

/-- The template tail: the guidelines and output-format sections. -/
def promptGuidelines : PyStr :=
  ("\n### Guidelines:\n1. Maintain the core message and intent of the original email\n2. Improve clarity, conciseness, and readability\n3. Ensure appropriate greeting and closing\n4. Use proper email structure with clear paragraphs\n5. Adapt language and terminology for the target audience\n6. Remove redundancy and filler words\n7. Ensure professional formatting and grammar\n\n### Output Format:\nProvide only the rewritten email content without any explanations, comments, or metadata. The output should be ready to send as-is.\n").toList

/-- The rendered focus-areas block (empty when the list is empty/falsy). -/
def focusBlock (focus_areas : List PyStr) : PyStr :=
  if focus_areas = [] then []
  else focusHeaderLit
    ++ (focus_areas.map (fun a => emphasizeLit ++ a ++ ['\n'])).flatten

/-- The rendered constraints block (empty when the dictionary is
absent/falsy; each line only when its entry is truthy). -/
def constraintsBlock : Option TemplateConstraints → PyStr
  | none => []
  | some c =>
    constraintsHeaderLit
    ++ (match c.max_length with
        | some n => if n ≠ 0 then maxLengthLit ++ natRepr n ++ wordsLit else []
        | none => [])
    ++ (match c.must_include with
        | some l => if l ≠ [] then mustIncludeLit ++ joinCommaSpace l ++ ['\n'] else []
        | none => [])
    ++ (match c.avoid with
        | some l => if l ≠ [] then avoidLit ++ joinCommaSpace l ++ ['\n'] else []
        | none => [])

/-- The rendered additional-instructions block. -/
def additionalBlock : Option PyStr → PyStr
  | none => []
  | some s =>
    if s = [] then []
    else addlHeaderLit ++ s ++ ['\n']

/-- The rendered template before the final strip, with the displayed tone
and the tone description abstracted (they are instantiated with
`jinjaCapitalize tone` and `toneDescription tone`). -/
def promptBodyWith (email_text target_audience capTone desc : PyStr)
    (additional_instructions : Option PyStr) (focus_areas : List PyStr)
    (constraints : Option TemplateConstraints) : PyStr :=
  promptSeg1 ++ email_text ++ promptSeg2 ++ target_audience ++ promptSeg3
    ++ capTone ++ promptToneMid ++ desc ++ ['\n', '\n']
    ++ focusBlock focus_areas ++ ['\n']
    ++ constraintsBlock constraints ++ ['\n']
    ++ additionalBlock additional_instructions ++ promptGuidelines

/-- `PromptTemplates.get_email_rewrite_prompt`
(`src/utils/prompt_templates.py` lines 51-137): render the template and
strip the result. -/
def get_email_rewrite_prompt (email_text target_audience tone : PyStr)
    (additional_instructions : Option PyStr) (focus_areas : List PyStr)
    (constraints : Option TemplateConstraints) : PyStr :=
  pyStrip (promptBodyWith email_text target_audience
    (jinjaCapitalize tone) (toneDescription tone)
    additional_instructions focus_areas constraints)

/-! ### Infix decomposition machinery for the tone-phrase claims. -/

theorem infix_append_cases {p A B : PyStr} (h : p <:+: A ++ B) :
    p <:+: A ∨ p <:+: B
      ∨ ∃ a b, p = a ++ b ∧ a ≠ [] ∧ b ≠ [] ∧ a <:+ A ∧ b <+: B := by
  induction A generalizing p with
  | nil => exact Or.inr (Or.inl (by simpa using h))
  | cons x A' ih =>
    rw [List.cons_append, List.infix_cons_iff] at h
    rcases h with h | h
    · by_cases hlen : p.length ≤ (x :: A').length
      · exact Or.inl ((List.prefix_of_prefix_length_le h (List.prefix_append _ _)
          (by simpa using hlen)).isInfix)
      · have hXp : (x :: A') <+: p :=
          List.prefix_of_prefix_length_le (List.prefix_append _ _) h (by omega)
        obtain ⟨b, hb⟩ := hXp
        have hbB : b <+: B := by
          have : (x :: A') ++ b <+: (x :: A') ++ B := by rw [hb]; exact h
          exact (List.prefix_append_right_inj _).mp this
        refine Or.inr (Or.inr ⟨x :: A', b, hb.symm, List.cons_ne_nil _ _, ?_,
          List.suffix_rfl, hbB⟩)
        rintro rfl
        rw [List.append_nil] at hb
        exact hlen (le_of_eq (by rw [hb]))
    · rcases ih h with h' | h' | ⟨a, b, hab, ha, hb, hsuf, hpre⟩
      · exact Or.inl (h'.trans (List.suffix_cons x A').isInfix)
      · exact Or.inr (Or.inl h')
      · exact Or.inr (Or.inr ⟨a, b, hab, ha, hb,
          hsuf.trans (List.suffix_cons x A'), hpre⟩)

/-- A nonempty phrase missing the character `c` is not an infix of the
one-character string `[c]`. -/
theorem not_infix_singleton {p : PyStr} {c : Char} (hp0 : p ≠ []) (hnp : c ∉ p) :
    ¬ p <:+: [c] := by
  intro h
  match p, hp0 with
  | d :: p', _ =>
    have hd : d ∈ [c] := h.subset (List.mem_cons_self d p')
    simp at hd
    subst hd
    exact hnp (List.mem_cons_self _ _)

/-- Crossing a junction whose left side ends in a newline is impossible for
a newline-free phrase. -/
theorem no_cross_left_nl {p A B : PyStr} (hnl : '\n' ∉ p)
    (hA : A.getLast? = some '\n') :
    ¬ ∃ a b, p = a ++ b ∧ a ≠ [] ∧ b ≠ [] ∧ a <:+ A ∧ b <+: B := by
  rintro ⟨a, b, hp, ha, hb, hsuf, hpre⟩
  obtain ⟨s, hs⟩ := hsuf
  have hlast : a.getLast? = some '\n' := by
    rw [← hA, ← hs, List.getLast?_append_of_ne_nil _ ha]
  have : '\n' ∈ a := List.mem_of_mem_getLast? (by simpa using hlast)
  exact hnl (by rw [hp]; exact List.mem_append.mpr (Or.inl this))

/-- Crossing a junction where the phrase has no nonempty prefix that is a
suffix of the concrete left literal is impossible. -/
theorem no_cross_left_chk {p L B : PyStr}
    (hchk : ∀ i, i < p.length → ¬ (p.take (i + 1) <:+ L)) :
    ¬ ∃ a b, p = a ++ b ∧ a ≠ [] ∧ b ≠ [] ∧ a <:+ L ∧ b <+: B := by
  rintro ⟨a, b, hp, ha, hb, hsuf, hpre⟩
  have ha1 : 1 ≤ a.length := by
    cases a with
    | nil => exact absurd rfl ha
    | cons _ _ => simp
  have hb1 : 1 ≤ b.length := by
    cases b with
    | nil => exact absurd rfl hb
    | cons _ _ => simp
  have hlen : a.length - 1 < p.length := by
    rw [hp, List.length_append]
    omega
  have htake : p.take (a.length - 1 + 1) = a := by
    rw [hp, show a.length - 1 + 1 = a.length by omega, List.take_left]
  exact hchk (a.length - 1) hlen (by rw [htake]; exact hsuf)

/-- Crossing a junction whose right side starts with a newline is
impossible for a newline-free phrase. -/
theorem no_cross_right_nl {p A B : PyStr} (hnl : '\n' ∉ p)
    (hB : B.head? = some '\n') :
    ¬ ∃ a b, p = a ++ b ∧ a ≠ [] ∧ b ≠ [] ∧ a <:+ A ∧ b <+: B := by
  rintro ⟨a, b, hp, ha, hb, hsuf, hpre⟩
  obtain ⟨t, ht⟩ := hpre
  have hhead : b.head? = some '\n' := by
    rw [← hB, ← ht, List.head?_append_of_ne_nil _ hb]
  have : '\n' ∈ b := List.mem_of_mem_head? (by simpa using hhead)
  exact hnl (by rw [hp]; exact List.mem_append.mpr (Or.inr this))

/-- Crossing a junction whose right side is a concrete literal `R`
containing a newline, followed by anything, is impossible when no nonempty
suffix of the (newline-free) phrase is a prefix of `R`. -/
theorem no_cross_right_chk {p A R tail : PyStr} (hnl : '\n' ∉ p)
    (hRnl : '\n' ∈ R)
    (hchk : ∀ i, i < p.length → ¬ (p.drop i <+: R)) :
    ¬ ∃ a b, p = a ++ b ∧ a ≠ [] ∧ b ≠ [] ∧ a <:+ A ∧ b <+: (R ++ tail) := by
  rintro ⟨a, b, hp, ha, hb, hsuf, hpre⟩
  have hdrop : p.drop a.length = b := by
    rw [hp, List.drop_left]
  have hlt : a.length < p.length := by
    rw [hp, List.length_append]
    cases b with
    | nil => exact absurd rfl hb
    | cons _ _ =>
      simp only [List.length_cons]
      omega
  by_cases hlen : b.length ≤ R.length
  · exact hchk a.length hlt (hdrop ▸
      List.prefix_of_prefix_length_le hpre (List.prefix_append _ _) hlen)
  · have hRb : R <+: b :=
      List.prefix_of_prefix_length_le (List.prefix_append _ _) hpre (by omega)
    have : '\n' ∈ b := hRb.subset hRnl
    exact hnl (by rw [hp]; exact List.mem_append.mpr (Or.inr this))

/-- Chain step: a phrase absent from both sides of an append, with the
junction blocked, is absent from the append. -/
theorem not_infix_append {p A B : PyStr} (hA : ¬ p <:+: A) (hB : ¬ p <:+: B)
    (hX : ¬ ∃ a b, p = a ++ b ∧ a ≠ [] ∧ b ≠ [] ∧ a <:+ A ∧ b <+: B) :
    ¬ p <:+: A ++ B := by
  intro h
  rcases infix_append_cases h with h | h | h
  · exact hA h
  · exact hB h
  · exact hX h

theorem not_infix_nl_cons {p tail : PyStr} (hnl : '\n' ∉ p) (hp0 : p ≠ [])
    (htail : ¬ p <:+: tail) : ¬ p <:+: ('\n' :: tail) := by
  have h := not_infix_append (A := ['\n']) (B := tail)
    (not_infix_singleton hp0 hnl) htail (no_cross_left_nl hnl rfl)
  simpa using h

/-- All characters rendered by `natRepr` are decimal digits. -/
theorem natRepr_digits (n : ℕ) : ∀ c ∈ natRepr n, c.isDigit := by
  induction n using Nat.strong_induction_on with
  | _ n ih =>
    intro c hc
    rw [natRepr] at hc
    by_cases h : n < 10
    · rw [if_pos h] at hc
      simp only [List.mem_singleton] at hc
      subst hc
      interval_cases n <;> decide
    · rw [if_neg h] at hc
      rcases List.mem_append.mp hc with hc | hc
      · exact ih (n / 10) (by omega) c hc
      · simp only [List.mem_singleton] at hc
        subst hc
        have h10 : n % 10 < 10 := Nat.mod_lt _ (by norm_num)
        set m := n % 10 with hm
        interval_cases m <;> decide

theorem not_infix_natRepr {p : PyStr} (n : ℕ) (hnd : ∃ c ∈ p, ¬ c.isDigit) :
    ¬ p <:+: natRepr n := by
  intro h
  obtain ⟨c, hc, hcd⟩ := hnd
  exact hcd (natRepr_digits n c (h.subset hc))

/-- A line of the shape `lit ++ j ++ "\n"` followed by `tail`: the phrase is
absent when it is absent from the literal, the joined user text and the
tail, and cannot cross the junctions. -/
theorem phrase_absent_line {p lit j tail : PyStr} (hnl : '\n' ∉ p) (hp0 : p ≠ [])
    (hlit : ¬ p <:+: lit)
    (hlchk : ∀ i, i < p.length → ¬ (p.take (i + 1) <:+ lit))
    (hj : ¬ p <:+: j) (htail : ¬ p <:+: tail) :
    ¬ p <:+: (lit ++ (j ++ ('\n' :: tail))) := by
  refine not_infix_append hlit ?_ (no_cross_left_chk hlchk)
  exact not_infix_append hj (not_infix_nl_cons hnl hp0 htail) (no_cross_right_nl hnl rfl)

/-- The focus-area items: absence of the phrase. -/
theorem phrase_absent_focus_items {p : PyStr} (focus : List PyStr) {tail : PyStr}
    (hnl : '\n' ∉ p) (hp0 : p ≠ [])
    (hlit : ¬ p <:+: emphasizeLit)
    (hlchk : ∀ i, i < p.length → ¬ (p.take (i + 1) <:+ emphasizeLit))
    (hfocus : ∀ a ∈ focus, ¬ p <:+: a)
    (htail : ¬ p <:+: tail) :
    ¬ p <:+: ((focus.map (fun a => emphasizeLit ++ a ++ ['\n'])).flatten ++ tail) := by
  induction focus with
  | nil => simpa using htail
  | cons a f ih =>
    have ihf : ¬ p <:+: ((f.map (fun a => emphasizeLit ++ a ++ ['\n'])).flatten ++ tail) :=
      ih (fun x hx => hfocus x (List.mem_cons_of_mem a hx))
    have hassoc :
        ((List.map (fun a => emphasizeLit ++ a ++ ['\n']) (a :: f)).flatten ++ tail)
          = emphasizeLit ++ (a ++ ('\n'
              :: ((f.map (fun a => emphasizeLit ++ a ++ ['\n'])).flatten ++ tail))) := by
      simp [List.append_assoc]
    rw [hassoc]
    exact phrase_absent_line hnl hp0 hlit hlchk (hfocus a (List.mem_cons_self a f)) ihf

/-- The focus block followed by `tail`: absence of the phrase. -/
theorem phrase_absent_focusBlock {p : PyStr} (focus : List PyStr) {tail : PyStr}
    (hnl : '\n' ∉ p) (hp0 : p ≠ [])
    (hhdr : ¬ p <:+: focusHeaderLit)
    (hlit : ¬ p <:+: emphasizeLit)
    (hlchk : ∀ i, i < p.length → ¬ (p.take (i + 1) <:+ emphasizeLit))
    (hfocus : ∀ a ∈ focus, ¬ p <:+: a)
    (htail : ¬ p <:+: tail) :
    ¬ p <:+: (focusBlock focus ++ tail) := by
  by_cases hf : focus = []
  · simpa [focusBlock, hf] using htail
  · have hassoc : focusBlock focus ++ tail
        = focusHeaderLit
          ++ ((focus.map (fun a => emphasizeLit ++ a ++ ['\n'])).flatten ++ tail) := by
      simp [focusBlock, hf, List.append_assoc]
    rw [hassoc]
    exact not_infix_append hhdr
      (phrase_absent_focus_items focus hnl hp0 hlit hlchk hfocus htail)
      (no_cross_left_nl hnl rfl)

/-- The max-length constraint line followed by `tail`: absence of the
phrase. -/
theorem phrase_absent_maxLine {p : PyStr} (n : ℕ) {tail : PyStr}
    (hnl : '\n' ∉ p) (hp0 : p ≠ [])
    (hnd : ∃ c ∈ p, ¬ c.isDigit)
    (hlit : ¬ p <:+: maxLengthLit)
    (hlchk : ∀ i, i < p.length → ¬ (p.take (i + 1) <:+ maxLengthLit))
    (hw : ¬ p <:+: wordsLit)
    (hwchk : ∀ i, i < p.length → ¬ (p.drop i <+: wordsLit))
    (htail : ¬ p <:+: tail) :
    ¬ p <:+: (maxLengthLit ++ (natRepr n ++ (wordsLit ++ tail))) := by
  refine not_infix_append hlit ?_ (no_cross_left_chk hlchk)
  refine not_infix_append (not_infix_natRepr n hnd) ?_
    (no_cross_right_chk hnl (by decide) hwchk)
  exact not_infix_append hw htail (no_cross_left_nl hnl (by decide))

/-- The constraints block followed by `tail`: absence of the phrase. -/
theorem phrase_absent_constraintsBlock {p : PyStr} (co : Option TemplateConstraints)
    {tail : PyStr} (hnl : '\n' ∉ p) (hp0 : p ≠ [])
    (hnd : ∃ c ∈ p, ¬ c.isDigit)
    (hhdr : ¬ p <:+: constraintsHeaderLit)
    (hmaxl : ¬ p <:+: maxLengthLit)
    (hmaxchk : ∀ i, i < p.length → ¬ (p.take (i + 1) <:+ maxLengthLit))
    (hw : ¬ p <:+: wordsLit)
    (hwchk : ∀ i, i < p.length → ¬ (p.drop i <+: wordsLit))
    (hmustl : ¬ p <:+: mustIncludeLit)
    (hmustchk : ∀ i, i < p.length → ¬ (p.take (i + 1) <:+ mustIncludeLit))
    (havoidl : ¬ p <:+: avoidLit)
    (havoidchk : ∀ i, i < p.length → ¬ (p.take (i + 1) <:+ avoidLit))
    (hmust : ∀ c l, co = some c → c.must_include = some l → ¬ p <:+: joinCommaSpace l)
    (havoid : ∀ c l, co = some c → c.avoid = some l → ¬ p <:+: joinCommaSpace l)
    (htail : ¬ p <:+: tail) :
    ¬ p <:+: (constraintsBlock co ++ tail) := by
  match co with
  | none => simpa [constraintsBlock] using htail
  | some c =>
    have havoidPart :
        ¬ p <:+: ((match c.avoid with
          | some l => if l ≠ [] then avoidLit ++ joinCommaSpace l ++ ['\n'] else []
          | none => []) ++ tail) := by
      match hca : c.avoid with
      | none => simpa using htail
      | some l =>
        by_cases hl : l = []
        · simpa [hl] using htail
        · have hj : ¬ p <:+: joinCommaSpace l := havoid c l rfl hca
          have hassoc : (if l ≠ [] then avoidLit ++ joinCommaSpace l ++ ['\n'] else []) ++ tail
              = avoidLit ++ (joinCommaSpace l ++ ('\n' :: tail)) := by
            rw [if_pos hl]
            simp [List.append_assoc]
          rw [hassoc]
          exact phrase_absent_line hnl hp0 havoidl havoidchk hj htail
    have hmustPart :
        ¬ p <:+: ((match c.must_include with
          | some l => if l ≠ [] then mustIncludeLit ++ joinCommaSpace l ++ ['\n'] else []
          | none => []) ++ ((match c.avoid with
          | some l => if l ≠ [] then avoidLit ++ joinCommaSpace l ++ ['\n'] else []
          | none => []) ++ tail)) := by
      match hcm : c.must_include with
      | none => simpa using havoidPart
      | some l =>
        by_cases hl : l = []
        · simpa [hl] using havoidPart
        · have hj : ¬ p <:+: joinCommaSpace l := hmust c l rfl hcm
          have hassoc : (if l ≠ [] then mustIncludeLit ++ joinCommaSpace l ++ ['\n'] else [])
                ++ ((match c.avoid with
                  | some l => if l ≠ [] then avoidLit ++ joinCommaSpace l ++ ['\n'] else []
                  | none => []) ++ tail)
              = mustIncludeLit ++ (joinCommaSpace l ++ ('\n' :: ((match c.avoid with
                  | some l => if l ≠ [] then avoidLit ++ joinCommaSpace l ++ ['\n'] else []
                  | none => []) ++ tail))) := by
            rw [if_pos hl]
            simp [List.append_assoc]
          rw [hassoc]
          exact phrase_absent_line hnl hp0 hmustl hmustchk hj havoidPart
    have hmaxPart :
        ¬ p <:+: ((match c.max_length with
          | some n => if n ≠ 0 then maxLengthLit ++ natRepr n ++ wordsLit else []
          | none => []) ++ ((match c.must_include with
          | some l => if l ≠ [] then mustIncludeLit ++ joinCommaSpace l ++ ['\n'] else []
          | none => []) ++ ((match c.avoid with
          | some l => if l ≠ [] then avoidLit ++ joinCommaSpace l ++ ['\n'] else []
          | none => []) ++ tail))) := by
      match hcx : c.max_length with
      | none => simpa using hmustPart
      | some n =>
        by_cases hn : n = 0
        · simpa [hn] using hmustPart
        · have hassoc : (if n ≠ 0 then maxLengthLit ++ natRepr n ++ wordsLit else [])
                ++ ((match c.must_include with
                  | some l => if l ≠ [] then mustIncludeLit ++ joinCommaSpace l ++ ['\n'] else []
                  | none => []) ++ ((match c.avoid with
                  | some l => if l ≠ [] then avoidLit ++ joinCommaSpace l ++ ['\n'] else []
                  | none => []) ++ tail))
              = maxLengthLit ++ (natRepr n ++ (wordsLit ++ ((match c.must_include with
                  | some l => if l ≠ [] then mustIncludeLit ++ joinCommaSpace l ++ ['\n'] else []
                  | none => []) ++ ((match c.avoid with
                  | some l => if l ≠ [] then avoidLit ++ joinCommaSpace l ++ ['\n'] else []
                  | none => []) ++ tail)))) := by
            rw [if_pos hn]
            simp [List.append_assoc]
          rw [hassoc]
          exact phrase_absent_maxLine n hnl hp0 hnd hmaxl hmaxchk hw hwchk hmustPart
    have hassoc : constraintsBlock (some c) ++ tail
        = constraintsHeaderLit ++ ((match c.max_length with
          | some n => if n ≠ 0 then maxLengthLit ++ natRepr n ++ wordsLit else []
          | none => []) ++ ((match c.must_include with
          | some l => if l ≠ [] then mustIncludeLit ++ joinCommaSpace l ++ ['\n'] else []
          | none => []) ++ ((match c.avoid with
          | some l => if l ≠ [] then avoidLit ++ joinCommaSpace l ++ ['\n'] else []
          | none => []) ++ tail))) := by
      simp [constraintsBlock, List.append_assoc]
    rw [hassoc]
    exact not_infix_append hhdr hmaxPart (no_cross_left_nl hnl (by decide))

/-- The additional-instructions block followed by the guidelines tail:
absence of the phrase. -/
theorem phrase_absent_additionalBlock {p : PyStr} (instr : Option PyStr)
    {tail : PyStr} (hnl : '\n' ∉ p) (hp0 : p ≠ [])
    (hhdr : ¬ p <:+: addlHeaderLit)
    (hinstr : ∀ s, instr = some s → ¬ p <:+: s)
    (htail : ¬ p <:+: tail) :
    ¬ p <:+: (additionalBlock instr ++ tail) := by
  match instr with
  | none => simpa [additionalBlock] using htail
  | some s =>
    by_cases hs : s = []
    · simpa [additionalBlock, hs] using htail
    · have hassoc : additionalBlock (some s) ++ tail
          = addlHeaderLit ++ (s ++ ('\n' :: tail)) := by
        simp [additionalBlock, hs, List.append_assoc]
      rw [hassoc]
      refine not_infix_append hhdr ?_ (no_cross_left_nl hnl (by decide))
      exact not_infix_append (hinstr s rfl) (not_infix_nl_cons hnl hp0 htail)
        (no_cross_right_nl hnl rfl)

/-- The decidable side conditions about a concrete phrase `p` and the
selected tone description `D` needed to rule occurrences of `p` out of the
rendered prompt. -/
def phraseChecks (p D : PyStr) : Prop :=
  '\n' ∉ p
  ∧ (∃ c ∈ p, ¬ c.isDigit)
  ∧ ¬ p <:+: promptSeg1
  ∧ ¬ p <:+: promptSeg2
  ∧ ¬ p <:+: promptSeg3
  ∧ ¬ p <:+: promptToneMid
  ∧ (∀ i, i < p.length → ¬ (p.take (i + 1) <:+ promptToneMid))
  ∧ ¬ p <:+: D
  ∧ (∀ i, i < p.length → ¬ (p.drop i <+: (promptToneMid ++ D ++ ['\n'])))
  ∧ ¬ p <:+: focusHeaderLit
  ∧ ¬ p <:+: emphasizeLit
  ∧ (∀ i, i < p.length → ¬ (p.take (i + 1) <:+ emphasizeLit))
  ∧ ¬ p <:+: constraintsHeaderLit
  ∧ ¬ p <:+: maxLengthLit
  ∧ (∀ i, i < p.length → ¬ (p.take (i + 1) <:+ maxLengthLit))
  ∧ ¬ p <:+: wordsLit
  ∧ (∀ i, i < p.length → ¬ (p.drop i <+: wordsLit))
  ∧ ¬ p <:+: mustIncludeLit
  ∧ (∀ i, i < p.length → ¬ (p.take (i + 1) <:+ mustIncludeLit))
  ∧ ¬ p <:+: avoidLit
  ∧ (∀ i, i < p.length → ¬ (p.take (i + 1) <:+ avoidLit))
  ∧ ¬ p <:+: addlHeaderLit
  ∧ ¬ p <:+: promptGuidelines

instance (p D : PyStr) : Decidable (phraseChecks p D) := by
  unfold phraseChecks
  infer_instance

/-- A phrase satisfying the side conditions and absent from every
caller-supplied field does not occur in the rendered template body. -/
theorem phrase_absent_promptBodyWith
    (p D email audience capT : PyStr) (instr : Option PyStr)
    (focus : List PyStr) (co : Option TemplateConstraints)
    (hchk : phraseChecks p D)
    (hemail : ¬ p <:+: email) (haud : ¬ p <:+: audience) (hcap : ¬ p <:+: capT)
    (hfocus : ∀ a ∈ focus, ¬ p <:+: a)
    (hinstr : ∀ s, instr = some s → ¬ p <:+: s)
    (hmust : ∀ c l, co = some c → c.must_include = some l → ¬ p <:+: joinCommaSpace l)
    (havoid : ∀ c l, co = some c → c.avoid = some l → ¬ p <:+: joinCommaSpace l) :
    ¬ p <:+: promptBodyWith email audience capT D instr focus co := by
  obtain ⟨hnl, hnd, h1, h2, h3, hPTM, hPTMl, hD, hcapR, hF, hE, hEl, hC,
    hMx, hMxl, hW, hWr, hMu, hMul, hAv, hAvl, hA, hG⟩ := hchk
  have hp0 : p ≠ [] := by
    obtain ⟨c, hc, _⟩ := hnd
    exact List.ne_nil_of_mem hc
  have t9 : ¬ p <:+: promptGuidelines := hG
  have t8 : ¬ p <:+: (additionalBlock instr ++ promptGuidelines) :=
    phrase_absent_additionalBlock instr hnl hp0 hA hinstr t9
  have t7 : ¬ p <:+: ('\n' :: (additionalBlock instr ++ promptGuidelines)) :=
    not_infix_nl_cons hnl hp0 t8
  have t6 : ¬ p <:+: (constraintsBlock co
      ++ ('\n' :: (additionalBlock instr ++ promptGuidelines))) :=
    phrase_absent_constraintsBlock co hnl hp0 hnd hC hMx hMxl hW hWr hMu hMul
      hAv hAvl hmust havoid t7
  have t5 : ¬ p <:+: ('\n' :: (constraintsBlock co
      ++ ('\n' :: (additionalBlock instr ++ promptGuidelines)))) :=
    not_infix_nl_cons hnl hp0 t6
  have t4 : ¬ p <:+: (focusBlock focus ++ ('\n' :: (constraintsBlock co
      ++ ('\n' :: (additionalBlock instr ++ promptGuidelines))))) :=
    phrase_absent_focusBlock focus hnl hp0 hF hE hEl hfocus t5
  have t3b : ¬ p <:+: ('\n' :: ('\n' :: (focusBlock focus
      ++ ('\n' :: (constraintsBlock co
      ++ ('\n' :: (additionalBlock instr ++ promptGuidelines))))))) :=
    not_infix_nl_cons hnl hp0 (not_infix_nl_cons hnl hp0 t4)
  have t3 : ¬ p <:+: (D ++ ('\n' :: ('\n' :: (focusBlock focus
      ++ ('\n' :: (constraintsBlock co
      ++ ('\n' :: (additionalBlock instr ++ promptGuidelines)))))))) :=
    not_infix_append hD t3b (no_cross_right_nl hnl rfl)
  have t2 : ¬ p <:+: (promptToneMid ++ (D ++ ('\n' :: ('\n' :: (focusBlock focus
      ++ ('\n' :: (constraintsBlock co
      ++ ('\n' :: (additionalBlock instr ++ promptGuidelines))))))))) :=
    not_infix_append hPTM t3 (no_cross_left_chk hPTMl)
  have hcapXeq : promptToneMid ++ (D ++ ('\n' :: ('\n' :: (focusBlock focus
      ++ ('\n' :: (constraintsBlock co
      ++ ('\n' :: (additionalBlock instr ++ promptGuidelines))))))))
      = (promptToneMid ++ D ++ ['\n']) ++ ('\n' :: (focusBlock focus
      ++ ('\n' :: (constraintsBlock co
      ++ ('\n' :: (additionalBlock instr ++ promptGuidelines)))))) := by
    simp [List.append_assoc]
  have t1 : ¬ p <:+: (capT ++ (promptToneMid ++ (D ++ ('\n' :: ('\n' :: (focusBlock focus
      ++ ('\n' :: (constraintsBlock co
      ++ ('\n' :: (additionalBlock instr ++ promptGuidelines)))))))))) := by
    refine not_infix_append hcap t2 ?_
    rw [hcapXeq]
    exact no_cross_right_chk hnl
      (List.mem_append.mpr (Or.inr (List.mem_singleton.mpr rfl))) hcapR
  have t0c : ¬ p <:+: (promptSeg3
      ++ (capT ++ (promptToneMid ++ (D ++ ('\n' :: ('\n' :: (focusBlock focus
      ++ ('\n' :: (constraintsBlock co
      ++ ('\n' :: (additionalBlock instr ++ promptGuidelines))))))))))) :=
    not_infix_append h3 t1 (no_cross_left_nl hnl (by decide))
  have t0b : ¬ p <:+: (audience ++ (promptSeg3
      ++ (capT ++ (promptToneMid ++ (D ++ ('\n' :: ('\n' :: (focusBlock focus
      ++ ('\n' :: (constraintsBlock co
      ++ ('\n' :: (additionalBlock instr ++ promptGuidelines)))))))))))) :=
    not_infix_append haud t0c (no_cross_right_nl hnl rfl)
  have t0a : ¬ p <:+: (promptSeg2 ++ (audience ++ (promptSeg3
      ++ (capT ++ (promptToneMid ++ (D ++ ('\n' :: ('\n' :: (focusBlock focus
      ++ ('\n' :: (constraintsBlock co
      ++ ('\n' :: (additionalBlock instr ++ promptGuidelines))))))))))))) :=
    not_infix_append h2 t0b (no_cross_left_nl hnl (by decide))
  have t0 : ¬ p <:+: (email ++ (promptSeg2 ++ (audience ++ (promptSeg3
      ++ (capT ++ (promptToneMid ++ (D ++ ('\n' :: ('\n' :: (focusBlock focus
      ++ ('\n' :: (constraintsBlock co
      ++ ('\n' :: (additionalBlock instr ++ promptGuidelines)))))))))))))) :=
    not_infix_append hemail t0a (no_cross_right_nl hnl rfl)
  have hbody : promptBodyWith email audience capT D instr focus co
      = promptSeg1 ++ (email ++ (promptSeg2 ++ (audience ++ (promptSeg3
      ++ (capT ++ (promptToneMid ++ (D ++ ('\n' :: ('\n' :: (focusBlock focus
      ++ ('\n' :: (constraintsBlock co
      ++ ('\n' :: (additionalBlock instr ++ promptGuidelines)))))))))))))) := by
    simp [promptBodyWith, List.append_assoc]
  rw [hbody]
  exact not_infix_append h1 t0 (no_cross_left_nl hnl (by decide))

/-! ### The rendered prompt after the final strip. -/

/-- `promptSeg1` without its leading newline (removed by the final strip). -/
def promptSeg1Stripped : PyStr :=
  "## Task: Rewrite Professional Email\n\n### Original Email:\n```\n".toList

/-- `promptGuidelines` without its trailing newline (removed by the final
strip). -/
def promptGuidelinesStripped : PyStr :=
  ("\n### Guidelines:\n1. Maintain the core message and intent of the original email\n2. Improve clarity, conciseness, and readability\n3. Ensure appropriate greeting and closing\n4. Use proper email structure with clear paragraphs\n5. Adapt language and terminology for the target audience\n6. Remove redundancy and filler words\n7. Ensure professional formatting and grammar\n\n### Output Format:\nProvide only the rewritten email content without any explanations, comments, or metadata. The output should be ready to send as-is.").toList

theorem dropWhile_eq_self_of_head {l : PyStr} {c : Char} (h : l.head? = some c)
    (hc : ¬ (Char.isWhitespace c = true)) :
    l.dropWhile Char.isWhitespace = l := by
  cases l with
  | nil => cases h
  | cons d l' =>
    have : d = c := by simpa using h
    subst this
    exact List.dropWhile_cons_of_neg hc

set_option maxRecDepth 4000 in
/-- The final strip removes exactly the template's leading and trailing
newlines: the rendered prompt in right-nested form. -/
theorem pyStrip_promptBodyWith (email audience capT D : PyStr)
    (instr : Option PyStr) (focus : List PyStr)
    (co : Option TemplateConstraints) :
    pyStrip (promptBodyWith email audience capT D instr focus co)
      = promptSeg1Stripped ++ (email ++ (promptSeg2 ++ (audience ++ (promptSeg3
        ++ (capT ++ (promptToneMid ++ (D ++ ('\n' :: ('\n' :: (focusBlock focus
        ++ ('\n' :: (constraintsBlock co
        ++ ('\n' :: (additionalBlock instr ++ promptGuidelinesStripped)))))))))))))) := by
  have hs1 : promptSeg1 = '\n' :: promptSeg1Stripped := rfl
  have hG : promptGuidelines = promptGuidelinesStripped ++ ['\n'] := rfl
  have hframe : promptBodyWith email audience capT D instr focus co
      = '\n' :: ((promptSeg1Stripped ++ (email ++ (promptSeg2 ++ (audience
        ++ (promptSeg3 ++ (capT ++ (promptToneMid ++ (D ++ ('\n' :: ('\n'
        :: (focusBlock focus ++ ('\n' :: (constraintsBlock co
        ++ ('\n' :: (additionalBlock instr
        ++ promptGuidelinesStripped))))))))))))))) ++ ['\n']) := by
    rw [promptBodyWith, hs1, hG]
    simp [List.append_assoc]
  rw [hframe]
  unfold pyStrip
  rw [List.dropWhile_cons_of_pos (by decide)]
  have hhead : ((promptSeg1Stripped ++ (email ++ (promptSeg2 ++ (audience
      ++ (promptSeg3 ++ (capT ++ (promptToneMid ++ (D ++ ('\n' :: ('\n'
      :: (focusBlock focus ++ ('\n' :: (constraintsBlock co
      ++ ('\n' :: (additionalBlock instr
      ++ promptGuidelinesStripped))))))))))))))) ++ ['\n']).head? = some '#' := by
    rw [List.head?_append_of_ne_nil _ (by simp [promptSeg1Stripped]),
      List.head?_append_of_ne_nil _ (by simp [promptSeg1Stripped])]
    rfl
  rw [dropWhile_eq_self_of_head hhead (by decide)]
  rw [List.rdropWhile_concat_pos _ _ _ (by decide)]
  have hGsplit : promptGuidelinesStripped
      = promptGuidelinesStripped.dropLast ++ ['.'] := rfl
  have hS : promptSeg1Stripped ++ (email ++ (promptSeg2 ++ (audience
      ++ (promptSeg3 ++ (capT ++ (promptToneMid ++ (D ++ ('\n' :: ('\n'
      :: (focusBlock focus ++ ('\n' :: (constraintsBlock co
      ++ ('\n' :: (additionalBlock instr ++ promptGuidelinesStripped))))))))))))))
      = (promptSeg1Stripped ++ (email ++ (promptSeg2 ++ (audience
      ++ (promptSeg3 ++ (capT ++ (promptToneMid ++ (D ++ ('\n' :: ('\n'
      :: (focusBlock focus ++ ('\n' :: (constraintsBlock co
      ++ ('\n' :: (additionalBlock instr
      ++ promptGuidelinesStripped.dropLast))))))))))))))) ++ ['.'] := by
    nth_rewrite 1 [hGsplit]
    simp [List.append_assoc]
  rw [hS, List.rdropWhile_concat_neg _ _ _ (by decide), ← hS]

theorem pyStrip_infix_self (s : PyStr) : pyStrip s <:+: s :=
  (List.rdropWhile_prefix _ _).isInfix.trans (List.dropWhile_suffix _).isInfix

theorem char_toNat_ofNat (n : ℕ) (h : n.isValidChar) : (Char.ofNat n).toNat = n := by
  unfold Char.ofNat
  rw [dif_pos h]
  rfl

theorem toUpper_of_toLower_eq {c d : Char} (hd1 : 97 ≤ d.toNat) (hd2 : d.toNat ≤ 122)
    (h : c.toLower = d) : c.toUpper = d.toUpper := by
  simp only [Char.toLower] at h
  by_cases hc : c.toNat ≥ 65 ∧ c.toNat ≤ 90
  · rw [if_pos hc] at h
    have hv : (c.toNat + 32).isValidChar := Or.inl (by omega)
    have hdn : d.toNat = c.toNat + 32 := by
      rw [← h]
      exact char_toNat_ofNat _ hv
    have hcu : c.toUpper = c := by
      simp only [Char.toUpper]
      rw [if_neg (by omega)]
    have hdu : d.toUpper = c := by
      simp only [Char.toUpper]
      rw [if_pos ⟨hd1, hd2⟩, show d.toNat - 32 = c.toNat by omega, Char.ofNat_toNat]
    rw [hcu, hdu]
  · rw [if_neg hc] at h
    subst h
    rfl

/-- For any casing of a tone word whose lowercase form starts with a letter,
the displayed (capitalized) form is the uppercased first letter followed by
the lowercased rest. -/
theorem jinjaCapitalize_display (tone : PyStr) (d : Char) (ds : PyStr)
    (hd1 : 97 ≤ d.toNat) (hd2 : d.toNat ≤ 122)
    (h : pyLower tone = d :: ds) :
    jinjaCapitalize tone = d.toUpper :: ds := by
  match tone with
  | [] => simp [pyLower] at h
  | c :: r =>
    simp only [pyLower, List.map_cons] at h
    injection h with h1 h2
    show c.toUpper :: pyLower r = d.toUpper :: ds
    rw [toUpper_of_toLower_eq hd1 hd2 h1]
    rw [show pyLower r = List.map Char.toLower r from rfl, h2]

/-- The selected tone description occurs verbatim in the rendered prompt. -/
theorem toneDescription_infix_prompt (email audience tone : PyStr)
    (instr : Option PyStr) (focus : List PyStr)
    (co : Option TemplateConstraints) :
    toneDescription tone
      <:+: get_email_rewrite_prompt email audience tone instr focus co := by
  unfold get_email_rewrite_prompt
  rw [pyStrip_promptBodyWith]
  refine ⟨promptSeg1Stripped ++ email ++ promptSeg2 ++ audience ++ promptSeg3
    ++ jinjaCapitalize tone ++ promptToneMid,
    '\n' :: ('\n' :: (focusBlock focus ++ ('\n' :: (constraintsBlock co
      ++ ('\n' :: (additionalBlock instr ++ promptGuidelinesStripped)))))), ?_⟩
  simp [List.append_assoc]

/-- The displayed tone, delimited by the preceding newline and the
`" tone - "` separator, occurs verbatim in the rendered prompt. -/
theorem toneDisplay_infix_prompt (email audience tone : PyStr)
    (instr : Option PyStr) (focus : List PyStr)
    (co : Option TemplateConstraints) :
    ('\n' :: (jinjaCapitalize tone ++ promptToneMid))
      <:+: get_email_rewrite_prompt email audience tone instr focus co := by
  unfold get_email_rewrite_prompt
  rw [pyStrip_promptBodyWith,
    show promptSeg3 = ("\n\n### Tone Requirement:".toList) ++ ['\n'] from rfl]
  refine ⟨promptSeg1Stripped ++ email ++ promptSeg2 ++ audience
    ++ ("\n\n### Tone Requirement:".toList),
    toneDescription tone ++ ('\n' :: ('\n' :: (focusBlock focus
      ++ ('\n' :: (constraintsBlock co
      ++ ('\n' :: (additionalBlock instr ++ promptGuidelinesStripped))))))), ?_⟩
  simp [List.append_assoc]

/-- The caller-supplied fields of a render are free of the phrase `p`:
no occurrence in the email text, the audience, the displayed tone, any focus
area, the additional instructions, or the joined constraint lists. -/
def fieldsFree (p email audience tone : PyStr) (instr : Option PyStr)
    (focus : List PyStr) (co : Option TemplateConstraints) : Prop :=
  ¬ p <:+: email ∧ ¬ p <:+: audience ∧ ¬ p <:+: jinjaCapitalize tone
  ∧ (∀ a ∈ focus, ¬ p <:+: a)
  ∧ (∀ s, instr = some s → ¬ p <:+: s)
  ∧ (∀ c l, co = some c → c.must_include = some l → ¬ p <:+: joinCommaSpace l)
  ∧ (∀ c l, co = some c → c.avoid = some l → ¬ p <:+: joinCommaSpace l)

/-- A phrase satisfying the decidable checks against the selected
description `D`, absent from all caller-supplied fields, is absent from the
rendered prompt whose description is `D`. -/
theorem phrase_absent_prompt (p email audience tone : PyStr)
    (instr : Option PyStr) (focus : List PyStr)
    (co : Option TemplateConstraints)
    (hchk : phraseChecks p (toneDescription tone))
    (hfree : fieldsFree p email audience tone instr focus co) :
    ¬ p <:+: get_email_rewrite_prompt email audience tone instr focus co := by
  obtain ⟨h1, h2, h3, h4, h5, h6, h7⟩ := hfree
  intro h
  exact phrase_absent_promptBodyWith p (toneDescription tone) email audience
    (jinjaCapitalize tone) instr focus co hchk h1 h2 h3 h4 h5 h6 h7
    (h.trans (pyStrip_infix_self _))

set_option maxRecDepth 100000 in
/-- C8 (amended): for each supported tone the rendered prompt contains that
tone's exact canned phrase; when the caller-supplied fields (email text,
audience, displayed tone, focus areas, additional instructions, joined
constraint lists) do not themselves contain another tone's phrase, the
prompt contains neither of the other two phrases; for any other tone value
the generic fallback phrase appears; and the tone word is displayed
capitalized (first letter uppercased, rest lowercased) regardless of the
casing the caller supplied. -/
theorem C8_tone_phrases (email audience tone : PyStr) (instr : Option PyStr)
    (focus : List PyStr) (co : Option TemplateConstraints) :
    (tone = "professional".toList → tonePhraseProfessional
      <:+: get_email_rewrite_prompt email audience tone instr focus co)
    ∧ (tone = "casual".toList → tonePhraseCasual
      <:+: get_email_rewrite_prompt email audience tone instr focus co)
    ∧ (tone = "academic".toList → tonePhraseAcademic
      <:+: get_email_rewrite_prompt email audience tone instr focus co)
    ∧ (tone ≠ "professional".toList → tone ≠ "casual".toList →
      tone ≠ "academic".toList → tonePhraseFallback
      <:+: get_email_rewrite_prompt email audience tone instr focus co)
    ∧ (tone = "professional".toList →
      fieldsFree tonePhraseCasual email audience tone instr focus co →
      ¬ tonePhraseCasual <:+: get_email_rewrite_prompt email audience tone instr focus co)
    ∧ (tone = "professional".toList →
      fieldsFree tonePhraseAcademic email audience tone instr focus co →
      ¬ tonePhraseAcademic <:+: get_email_rewrite_prompt email audience tone instr focus co)
    ∧ (tone = "casual".toList →
      fieldsFree tonePhraseProfessional email audience tone instr focus co →
      ¬ tonePhraseProfessional <:+: get_email_rewrite_prompt email audience tone instr focus co)
    ∧ (tone = "casual".toList →
      fieldsFree tonePhraseAcademic email audience tone instr focus co →
      ¬ tonePhraseAcademic <:+: get_email_rewrite_prompt email audience tone instr focus co)
    ∧ (tone = "academic".toList →
      fieldsFree tonePhraseProfessional email audience tone instr focus co →
      ¬ tonePhraseProfessional <:+: get_email_rewrite_prompt email audience tone instr focus co)
    ∧ (tone = "academic".toList →
      fieldsFree tonePhraseCasual email audience tone instr focus co →
      ¬ tonePhraseCasual <:+: get_email_rewrite_prompt email audience tone instr focus co)
    ∧ (('\n' :: (jinjaCapitalize tone ++ promptToneMid))
      <:+: get_email_rewrite_prompt email audience tone instr focus co)
    ∧ (∀ d ds, pyLower tone = d :: ds → 97 ≤ d.toNat → d.toNat ≤ 122 →
      jinjaCapitalize tone = d.toUpper :: ds) := by
  refine ⟨?_, ?_, ?_, ?_, ?_, ?_, ?_, ?_, ?_, ?_, ?_, ?_⟩
  · rintro rfl
    have h := toneDescription_infix_prompt email audience ("professional".toList)
      instr focus co
    rwa [show toneDescription ("professional".toList) = tonePhraseProfessional
      from rfl] at h
  · rintro rfl
    have h := toneDescription_infix_prompt email audience ("casual".toList)
      instr focus co
    rwa [show toneDescription ("casual".toList) = tonePhraseCasual from rfl] at h
  · rintro rfl
    have h := toneDescription_infix_prompt email audience ("academic".toList)
      instr focus co
    rwa [show toneDescription ("academic".toList) = tonePhraseAcademic from rfl] at h
  · intro h1 h2 h3
    have h := toneDescription_infix_prompt email audience tone instr focus co
    rwa [toneDescription, if_neg h1, if_neg h2, if_neg h3] at h
  · rintro rfl hfree
    exact phrase_absent_prompt _ email audience _ instr focus co (by decide) hfree
  · rintro rfl hfree
    exact phrase_absent_prompt _ email audience _ instr focus co (by decide) hfree
  · rintro rfl hfree
    exact phrase_absent_prompt _ email audience _ instr focus co (by decide) hfree
  · rintro rfl hfree
    exact phrase_absent_prompt _ email audience _ instr focus co (by decide) hfree
  · rintro rfl hfree
    exact phrase_absent_prompt _ email audience _ instr focus co (by decide) hfree
  · rintro rfl hfree
    exact phrase_absent_prompt _ email audience _ instr focus co (by decide) hfree
  · exact toneDisplay_infix_prompt email audience tone instr focus co
  · intro d ds h hd1 hd2
    exact jinjaCapitalize_display tone d ds hd1 hd2 h

set_option maxRecDepth 100000 in
/-- C8 witness: at a concrete render with tone `professional` and benign
fields, the professional phrase occurs and the casual phrase does not; with
tone `FORMAL` (unsupported) the fallback phrase occurs; and the uppercase
caller spelling `PROFESSIONAL` is displayed as `Professional`. -/
theorem C8_tone_phrases_witness :
    tonePhraseProfessional <:+: get_email_rewrite_prompt
      ("Hello team, a quick note.".toList) ("executives".toList)
      ("professional".toList) none [] none
    ∧ ¬ tonePhraseCasual <:+: get_email_rewrite_prompt
      ("Hello team, a quick note.".toList) ("executives".toList)
      ("professional".toList) none [] none
    ∧ tonePhraseFallback <:+: get_email_rewrite_prompt
      ("Hello team, a quick note.".toList) ("executives".toList)
      ("FORMAL".toList) none [] none
    ∧ jinjaCapitalize ("PROFESSIONAL".toList) = 'P' :: ("rofessional".toList) :=
  ⟨(C8_tone_phrases ("Hello team, a quick note.".toList) ("executives".toList)
      ("professional".toList) none [] none).1 rfl,
   (C8_tone_phrases ("Hello team, a quick note.".toList) ("executives".toList)
      ("professional".toList) none [] none).2.2.2.2.1 rfl
      ⟨by decide, by decide, by decide, by decide,
        fun s h => Option.noConfusion h,
        fun c l h => Option.noConfusion h,
        fun c l h => Option.noConfusion h⟩,
   (C8_tone_phrases ("Hello team, a quick note.".toList) ("executives".toList)
      ("FORMAL".toList) none [] none).2.2.2.1 (by decide) (by decide) (by decide),
   (C8_tone_phrases ("Hello team, a quick note.".toList) ("executives".toList)
      ("PROFESSIONAL".toList) none [] none).2.2.2.2.2.2.2.2.2.2.2
      'p' ("rofessional".toList) (by decide) (by decide) (by decide)⟩

set_option maxRecDepth 100000 in
/-- C8 counterexample: the claim as stated fails — with the supported tone
`professional`, an email text that happens to contain the casual tone's
phrase makes the rendered prompt contain that other tone's phrase. -/
theorem C8_other_phrase_injected_by_email :
    tonePhraseCasual <:+: get_email_rewrite_prompt tonePhraseCasual
      ("executives".toList) ("professional".toList) none [] none := by
  unfold get_email_rewrite_prompt
  rw [pyStrip_promptBodyWith]
  exact ⟨promptSeg1Stripped,
    promptSeg2 ++ ("executives".toList ++ (promptSeg3
      ++ (jinjaCapitalize ("professional".toList) ++ (promptToneMid
      ++ (toneDescription ("professional".toList) ++ ('\n' :: ('\n'
      :: (focusBlock [] ++ ('\n' :: (constraintsBlock none
      ++ ('\n' :: (additionalBlock none ++ promptGuidelinesStripped)))))))))))),
    by simp [List.append_assoc]⟩

/-- C2 witness: the specification instantiated at `a = 100`, `b = 50`,
model `gpt-4o`. -/
theorem C2_calculate_cost_spec_witness :
    (0 : ℤ) ≤ 100 ∧
      (calculate_cost 100 50 ("gpt-4o".toList) =
        pyRound (((100 : ℤ) : ℚ) / 1000 * (get_model_pricing ("gpt-4o".toList)).input
          + ((50 : ℤ) : ℚ) / 1000 * (get_model_pricing ("gpt-4o".toList)).output) 6
      ∧ calculate_cost 100 50 ("gpt-4o".toList) = calculate_cost 100 50 ("gpt-4o".toList)
      ∧ calculate_cost 0 0 ("gpt-4o".toList) = 0
      ∧ calculate_cost 100 50 ("gpt-4o".toList) = 0.00125) :=
  ⟨by decide, C2_calculate_cost_spec 100 50 (by decide) (by decide) ("gpt-4o".toList)⟩
